import Mathlib

/-!
Verification of `checkov/terraform/graph_builder/foreach/module_handler.py`
(`ForeachModuleHandler`), a shallow embedding in Lean 4.

Modelling conventions:
* Python objects are embedded as immutable Lean values; every in-place mutation of the
  source becomes an explicit functional update.  `deepcopy` is therefore the identity on
  the embedded values.
* `TFModule` (a `path`/`name`/`nested_tf_module`/`foreach_idx` record whose
  `nested_tf_module` is an optional `TFModule`) is embedded as a list of frames
  (`TFChain`): the head frame is the outermost record, the tail is its
  `nested_tf_module` chain, and the empty list models Python `None`.
* `vertices_by_module_dependency` is a `defaultdict`; it is embedded as an ordered
  association list where reading a missing key yields the empty group table without
  inserting it, and writes materialise the entry (Python's auto-vivification only
  matters on write paths for the observable behaviour modelled here).
* Unbounded recursion / `while` loops of the source are given an explicit fuel
  parameter; running out of fuel returns the state unchanged.  Theorems either hold for
  every fuel or quantify over a sufficiently large fuel.
* The collaborators that live outside the sources (the attribute renderer and the
  static-resolution oracle of `ForeachAbstractHandler` / `TerraformLocalGraph`) are
  modelled from the spec as parameters (`Collaborators`).
* The one exception the code can raise — the `TypeError` of the unguarded
  `range(statement)` on a non-integer `count` (source line 122) — is modelled with
  `Except PyError`: `_duplicate_module_with_count`, `processModuleE` and the
  `…E`-suffixed loop/round/entry functions propagate it; `processModule` is their
  total projection for executions that stay on the non-raising path.
-/

set_option maxRecDepth 8000

namespace ForeachModule

/-- A Python scalar as it appears in `for_each` keys/values and `count` indices. -/
inductive FVal where
  | vint (n : Int)
  | vstr (s : String)
  | vbool (b : Bool)
  | vnone
  deriving DecidableEq, Repr

/-- Python truthiness of a scalar (`bool(x)`). -/
def FVal.truthy : FVal → Bool
  | FVal.vint n => n != 0
  | FVal.vstr s => s != ""
  | FVal.vbool b => b
  | FVal.vnone => false

/-- A resolved iteration statement: a sequence, a mapping, an integer (for `count`), or
any other value (the malformed case the source's `isinstance` checks fall through on). -/
inductive FEStatement where
  | fseq (xs : List FVal)
  | fmap (kvs : List (FVal × FVal))
  | fint (n : Int)
  | fother (v : FVal)
  deriving DecidableEq, Repr

/-- Python truthiness of an iteration statement value. -/
def FEStatement.truthy : FEStatement → Bool
  | FEStatement.fseq xs => !xs.isEmpty
  | FEStatement.fmap kvs => !kvs.isEmpty
  | FEStatement.fint n => n != 0
  | FEStatement.fother v => v.truthy

/-- Truthiness of `attributes.get(...)` (Python `if for_each:` on an optional value). -/
def optTruthy : Option FEStatement → Bool
  | none => false
  | some st => st.truthy

/-- Python `new_key or new_value` (source line 173): the key if it is truthy, else the
value; an absent key (`None`) always falls through to the value. -/
def pyOr : Option FVal → FVal → FVal
  | none, v => v
  | some k, v => if k.truthy then k else v

/-- One `TFModule` record, minus its `nested_tf_module` field (held by the chain). -/
structure TFFrame where
  path : String
  name : String
  foreachIdx : Option FVal
  deriving DecidableEq, Repr

/-- A `TFModule | None` value: the head frame is the module itself, the tail is its
`nested_tf_module` chain; `[]` is Python `None`. -/
abbrev TFChain := List TFFrame

/-- `BlockType` of a vertex; only MODULE and RESOURCE are inspected by this handler. -/
inductive BlockType where
  | module
  | resource
  | var
  | other (s : String)
  deriving DecidableEq, Repr

/-- First-match lookup in an insertion-ordered string-keyed association list
(a Python `dict` read). -/
def lookupStr {α : Type} : List (String × α) → String → Option α
  | [], _ => none
  | (k, v) :: rest, key => if k = key then some v else lookupStr rest key

/-- The mutable nested configuration tree of a block, restricted to the shape the
handler inspects: nested string-keyed dicts, and the list stored under
`RESOLVED_MODULE_ENTRY_NAME`, each of whose elements is modelled by its
`tf_source_modules` chain.  Everything else is `cleaf`. -/
inductive ConfigVal where
  | cleaf
  | cdict (kvs : List (String × ConfigVal))
  | centries (es : List TFChain)

/-- `config.get(key)` on a dict, `None` otherwise. -/
def configGet : ConfigVal → String → Option ConfigVal
  | ConfigVal.cdict kvs, key => lookupStr kvs key
  | _, _ => none

/-- Replace the value of an existing key of a string-keyed association list
(Python in-place mutation reached through an alias; absent keys are untouched). -/
def setInList : List (String × ConfigVal) → String → ConfigVal → List (String × ConfigVal)
  | [], _, _ => []
  | (k, v) :: rest, key, nv =>
    if k = key then (k, nv) :: rest else (k, v) :: setInList rest key nv

/-- Functional update of a dict entry of a `ConfigVal`. -/
def configSet : ConfigVal → String → ConfigVal → ConfigVal
  | ConfigVal.cdict kvs, key, nv => ConfigVal.cdict (setInList kvs key nv)
  | c, _, _ => c

/-- A graph vertex (`TerraformBlock`), with the fields this handler reads or writes. -/
structure TerraformBlock where
  block_type : BlockType
  path : String
  name : String
  config : ConfigVal
  attributes : List (String × FEStatement)
  source_module_object : TFChain
  source_module : List Nat
  for_each_index : Option FVal

/-- The per-instantiation group table `{block_type -> [vertex index]}`. -/
abbrev VertexGroups := List (BlockType × List Nat)

/-- The membership index `vertices_by_module_dependency`:
`TFModule | None  ->  VertexGroups`, insertion ordered. -/
abbrev DepMap := List (TFChain × VertexGroups)

/-- Read one block type's index list out of a group table (missing -> `[]`,
matching the inner `defaultdict(list)` read). -/
def groupsGet : VertexGroups → BlockType → List Nat
  | [], _ => []
  | (b, l) :: rest, bt => if b = bt then l else groupsGet rest bt

/-- Write one block type's index list (replace in place, or append a new entry). -/
def groupsSet : VertexGroups → BlockType → List Nat → VertexGroups
  | [], bt, v => [(bt, v)]
  | (b, l) :: rest, bt, v =>
    if b = bt then (bt, v) :: rest else (b, l) :: groupsSet rest bt v

/-- Membership lookup (`key in dict` / `dict[key]` read). -/
def memFind : DepMap → TFChain → Option VertexGroups
  | [], _ => none
  | (k, v) :: rest, key => if k = key then some v else memFind rest key

/-- Membership read with the `defaultdict` default (no insertion on read). -/
def memGetD (m : DepMap) (k : TFChain) : VertexGroups := (memFind m k).getD []

/-- Membership write `dict[key] = value` (replace in place, or append a new entry). -/
def memSet : DepMap → TFChain → VertexGroups → DepMap
  | [], key, v => [(key, v)]
  | (k, gv) :: rest, key, v =>
    if k = key then (key, v) :: rest else (k, gv) :: memSet rest key v

/-- `dict[key][block_type].append(i)` with `defaultdict` auto-vivification. -/
def memAppendIdx (m : DepMap) (k : TFChain) (bt : BlockType) (i : Nat) : DepMap :=
  memSet m k (groupsSet (memGetD m k) bt (groupsGet (memGetD m k) bt ++ [i]))

/-- The graph store (`TerraformLocalGraph`), restricted to the two structures this
handler mutates. -/
structure TerraformLocalGraph where
  vertices : List TerraformBlock
  vertices_by_module_dependency : DepMap

/-- Placeholder block used as the out-of-range default of the total vertex read. -/
def defaultBlock : TerraformBlock :=
  { block_type := BlockType.other ""
    path := ""
    name := ""
    config := ConfigVal.cleaf
    attributes := []
    source_module_object := []
    source_module := []
    for_each_index := none }

/-- `self.local_graph.vertices[i]` (total read; claims only exercise valid indices). -/
def getV (s : TerraformLocalGraph) (i : Nat) : TerraformBlock :=
  s.vertices.getD i defaultBlock

/-- `self.local_graph.vertices[i] = b`. -/
def setV (s : TerraformLocalGraph) (i : Nat) (b : TerraformBlock) : TerraformLocalGraph :=
  { s with vertices := s.vertices.set i b }

/-- `self.local_graph.vertices_by_module_dependency[k][bt].append(i)`. -/
def memAppendIdxState (s : TerraformLocalGraph) (k : TFChain) (bt : BlockType) (i : Nat) :
    TerraformLocalGraph :=
  { s with vertices_by_module_dependency := memAppendIdx s.vertices_by_module_dependency k bt i }

def FOREACH_STRING : String := "for_each"
def COUNT_STRING : String := "count"
def RESOLVED_MODULE_ENTRY_NAME : String := "__resolved__"

/-- The pre-expansion `ModuleInstanceKey` of a block:
`TFModule(path, name, nested_tf_module=source_module_object)`, foreach index unset. -/
def preKeyOf (b : TerraformBlock) : TFChain :=
  ⟨b.path, b.name, none⟩ :: b.source_module_object

/-- The instance key of a block for instance key/value `v`. -/
def instKeyOf (b : TerraformBlock) (v : FVal) : TFChain :=
  ⟨b.path, b.name, some v⟩ :: b.source_module_object

/-- Rendering of an instance key inside the derived block name. -/
def fvalStr : FVal → String
  | FVal.vint n => toString n
  | FVal.vstr s => s
  | FVal.vbool b => if b then "True" else "False"
  | FVal.vnone => "None"

/-- `tf_module.foreach_idx = None` on the head module of a chain (`None` stays `None`). -/
def clearHeadForeach : TFChain → TFChain
  | [] => []
  | f :: rest => { f with foreachIdx := none } :: rest

/-- `tf_module.foreach_idx = k` on the head module of a chain (`None` stays `None`). -/
def setHeadForeach (k : FVal) : TFChain → TFChain
  | [] => []
  | f :: rest => { f with foreachIdx := some k } :: rest

/-- Modelled from the spec: `ForeachAbstractHandler._update_nested_tf_module_foreach_idx`
is not among the sources.  Per spec section 4.4 it "rewrites the descendant's
`source_module_object` to carry the ancestor's freshly assigned instance key": the
source-module chain is walked outermost-first and the module the original key identifies
(same path, same name, same enclosing chain) gets its foreach index set to the key. -/
def _update_nested_tf_module_foreach_idx (k : FVal) (okey : TFChain) : TFChain → TFChain
  | [] => []
  | f :: rest =>
    match okey with
    | [] => f :: rest
    | kf :: krest =>
      if f.path = kf.path ∧ f.name = kf.name ∧ rest = krest then
        { f with foreachIdx := some k } :: rest
      else
        f :: _update_nested_tf_module_foreach_idx k okey rest

/-- Rewrite the `RESOLVED_MODULE_ENTRY_NAME` entry of one config dict:
`config[RESOLVED_MODULE_ENTRY_NAME][0].tf_source_modules` is updated in place when the
entry exists and is non-empty (source lines 264-269). -/
def rewriteResolved (k : FVal) (okey : TFChain) (cfg : ConfigVal) : ConfigVal :=
  match configGet cfg RESOLVED_MODULE_ENTRY_NAME with
  | some (ConfigVal.centries (c :: rest)) =>
    configSet cfg RESOLVED_MODULE_ENTRY_NAME
      (ConfigVal.centries (_update_nested_tf_module_foreach_idx k okey c :: rest))
  | _ => cfg

/-- `_update_resolved_entry_for_tf_definition` (source lines 256-269).  For a RESOURCE
the config is reached under `name.split('.')` (first dot), otherwise under the block
name; Python's `KeyError` on a missing path is modelled as leaving the block unchanged
(no claim exercises that path). -/
def _update_resolved_entry_for_tf_definition (child : TerraformBlock) (k : FVal)
    (okey : TFChain) : TerraformBlock :=
  if child.block_type = BlockType.resource then
    let cn := String.mk (child.name.toList.takeWhile (fun c => c ≠ '.'))
    let ct := String.mk ((child.name.toList.dropWhile (fun c => c ≠ '.')).drop 1)
    match configGet child.config cn with
    | some inner =>
      match configGet inner ct with
      | some cfg =>
        let newCfg := configSet child.config cn (configSet inner ct (rewriteResolved k okey cfg))
        { child with config := newCfg }
      | none => child
    | none => child
  else
    match configGet child.config child.name with
    | some cfg => { child with config := configSet child.config child.name (rewriteResolved k okey cfg) }
    | none => child

/-- Modelled from the spec: `_build_key_to_val_changes` / `_update_foreach_attrs` of
`ForeachAbstractHandler` are not among the sources; per spec section 4.3 the
per-instance key/value substitution inside the configuration "is delegated to the
Attribute Renderer" collaborator, so the clone's config and attributes are modelled as
unchanged by this step. -/
def _update_foreach_attrs (b : TerraformBlock) (_new_key : Option FVal) (_new_value : FVal) :
    TerraformBlock := b

/-- Modelled from the spec: `_update_block_name_and_id` of `ForeachAbstractHandler` is
not among the sources; per spec section 4.3 the clone "derives a unique name encoding
the instance key" (the block id is not part of this model). -/
def _update_block_name_and_id (b : TerraformBlock) (idx : FVal) : TerraformBlock :=
  { b with name := b.name ++ "[" ++ fvalStr idx ++ "]" }

mutual

/-- `_create_new_module_with_vertices` (source lines 203-228): registers the freshly
appended instance vertex as a MODULE member of its parent's entry (parent key taken
from the original vertex's `source_module_object` with the foreach index unset), deep
copies the descendant subtree, and installs the copied group table under the instance
key. -/
def _create_new_module_with_vertices (fuel : Nat) (main_resource : TerraformBlock)
    (main_resource_module_value : VertexGroups) (resource_idx : Nat)
    (new_resource_module_key : Option TFChain) (s : TerraformLocalGraph) :
    TerraformLocalGraph :=
  match fuel with
  | 0 => s
  | fuel' + 1 =>
    let key := new_resource_module_key.getD
      (⟨main_resource.path, main_resource.name, main_resource.for_each_index⟩ ::
        main_resource.source_module_object)
    let new_resource_vertex_idx := s.vertices.length - 1
    let source_module_key := clearHeadForeach (getV s resource_idx).source_module_object
    let s1 := memAppendIdxState s source_module_key BlockType.module new_resource_vertex_idx
    let p := addNewVerticesLoop fuel' key BlockType.module [] main_resource_module_value
      new_resource_vertex_idx [] s1
    let newDep := memSet p.1.vertices_by_module_dependency key p.2
    { p.1 with vertices_by_module_dependency := newDep }

/-- The double loop of `_add_new_vertices_for_module` (source lines 230-254), flattened
into one worklist: `is` are the vertex indices of the current block type `bt`,
`pending` the remaining `(block_type, indices)` groups.  Each descendant is value
copied, re-homed to the new instance key, its back-reference re-pointed at the new
module vertex, and nested MODULE descendants recurse through
`_create_new_module_with_vertices`. -/
def addNewVerticesLoop (fuel : Nat) (new_module_key : TFChain) (bt : BlockType)
    (is : List Nat) (pending : VertexGroups) (new_resource_vertex_idx : Nat)
    (acc : VertexGroups) (s : TerraformLocalGraph) : TerraformLocalGraph × VertexGroups :=
  match fuel with
  | 0 => (s, acc)
  | fuel' + 1 =>
    match is with
    | [] =>
      match pending with
      | [] => (s, acc)
      | g :: rest =>
        addNewVerticesLoop fuel' new_module_key g.1 g.2 rest new_resource_vertex_idx acc s
    | i :: is' =>
      let module_vertex := getV s i
      let new_vertex := { module_vertex with
        source_module_object := new_module_key,
        source_module := module_vertex.source_module.dropLast ++ [new_resource_vertex_idx] }
      let s1 := { s with vertices := s.vertices ++ [new_vertex] }
      let new_vertex_idx := s1.vertices.length - 1
      let acc1 := groupsSet acc bt (groupsGet acc bt ++ [new_vertex_idx])
      if bt = BlockType.module then
        let module_vertex_key : TFChain :=
          ⟨module_vertex.path, module_vertex.name, module_vertex.for_each_index⟩ ::
            module_vertex.source_module_object
        let module_vertex_value := memGetD s1.vertices_by_module_dependency module_vertex_key
        let s2 := _create_new_module_with_vertices fuel' new_vertex module_vertex_value
          new_vertex_idx none s1
        addNewVerticesLoop fuel' new_module_key bt is' pending new_resource_vertex_idx acc1 s2
      else
        addNewVerticesLoop fuel' new_module_key bt is' pending new_resource_vertex_idx acc1 s1

end

/-- `_add_new_vertices_for_module` (source lines 230-254) as called with its full group
table. -/
def _add_new_vertices_for_module (fuel : Nat) (new_module_key : TFChain)
    (new_module_value : VertexGroups) (new_resource_vertex_idx : Nat)
    (s : TerraformLocalGraph) : TerraformLocalGraph × VertexGroups :=
  addNewVerticesLoop fuel new_module_key BlockType.module [] new_module_value
    new_resource_vertex_idx [] s

/-- `_create_new_module` (source lines 161-201).  The clone of `main_resource` gets
`for_each_index = new_key or new_value`; at position 0 it overwrites the original slot
and the pre-expansion membership value is re-installed under the key extended with the
instance index, at positions > 0 the clone is appended and the descendant subtree is
copied under the new instance key. -/
def _create_new_module (fuel : Nat) (main_resource : TerraformBlock) (new_value : FVal)
    (resource_idx : Nat) (foreach_idx : Nat) (new_key : Option FVal)
    (s : TerraformLocalGraph) : TerraformLocalGraph :=
  let new_resource := _update_foreach_attrs main_resource new_key new_value
  let idx_to_change := pyOr new_key new_value
  let new_resource := { new_resource with for_each_index := some idx_to_change }
  let main_resource_module_key : TFChain :=
    ⟨new_resource.path, main_resource.name, none⟩ :: new_resource.source_module_object
  let main_resource_module_value :=
    memGetD s.vertices_by_module_dependency main_resource_module_key
  let new_resource_module_key : TFChain :=
    ⟨new_resource.path, new_resource.name, some idx_to_change⟩ ::
      new_resource.source_module_object
  let new_resource := _update_block_name_and_id new_resource idx_to_change
  let new_resource :=
    _update_resolved_entry_for_tf_definition new_resource idx_to_change main_resource_module_key
  if foreach_idx ≠ 0 then
    let s1 := { s with vertices := s.vertices ++ [new_resource] }
    _create_new_module_with_vertices fuel main_resource main_resource_module_value
      resource_idx (some new_resource_module_key) s1
  else
    let s1 := setV s resource_idx new_resource
    let key_with_foreach_index := setHeadForeach idx_to_change main_resource_module_key
    let newDep := memSet s1.vertices_by_module_dependency key_with_foreach_index
      main_resource_module_value
    { s1 with vertices_by_module_dependency := newDep }

/-- `_create_new_foreach_resource` (source lines 103-106). -/
def _create_new_foreach_resource (fuel : Nat) (block_idx : Nat) (foreach_idx : Nat)
    (main_resource : TerraformBlock) (new_key : Option FVal) (new_value : FVal)
    (s : TerraformLocalGraph) : TerraformLocalGraph :=
  _create_new_module fuel main_resource new_value block_idx foreach_idx new_key s

mutual

/-- `_update_children_foreach_index` (source lines 130-159), entry part: look the
current key up in the membership index (absent means return) and walk all child index
lists. -/
def _update_children_foreach_index (fuel : Nat) (original_foreach_or_count_key : FVal)
    (original_module_key : TFChain) (current_module_key : TFChain)
    (should_override_foreach_key : Bool) (s : TerraformLocalGraph) : TerraformLocalGraph :=
  match fuel with
  | 0 => s
  | fuel' + 1 =>
    match memFind s.vertices_by_module_dependency current_module_key with
    | none => s
    | some groups =>
      updateChildrenLoop fuel' original_foreach_or_count_key original_module_key
        should_override_foreach_key [] (groups.map (fun g => g.2)) s

/-- The double loop of `_update_children_foreach_index` (source lines 141-159): each
child's `source_module_object` is rewritten to carry the instance key, its resolved
config entry updated, and the walk recurses under the child's key — built from a copy
of the child's (updated) source module object whose foreach index is cleared exactly
when `should_override_foreach_key` is set; the recursive call does not propagate the
flag (it defaults back to `True`).  The child's own `for_each_index` field is read
(into the recursion key) but never written. -/
def updateChildrenLoop (fuel : Nat) (original_foreach_or_count_key : FVal)
    (original_module_key : TFChain) (should_override_foreach_key : Bool)
    (is : List Nat) (pending : List (List Nat)) (s : TerraformLocalGraph) :
    TerraformLocalGraph :=
  match fuel with
  | 0 => s
  | fuel' + 1 =>
    match is with
    | [] =>
      match pending with
      | [] => s
      | g :: rest =>
        updateChildrenLoop fuel' original_foreach_or_count_key original_module_key
          should_override_foreach_key g rest s
    | child_index :: is' =>
      let child0 := getV s child_index
      let newSmo := _update_nested_tf_module_foreach_idx original_foreach_or_count_key
        original_module_key child0.source_module_object
      let child1 := { child0 with source_module_object := newSmo }
      let child := _update_resolved_entry_for_tf_definition child1
        original_foreach_or_count_key original_module_key
      let s1 := setV s child_index child
      let copy : TFChain :=
        if should_override_foreach_key then clearHeadForeach child.source_module_object
        else child.source_module_object
      let child_module_key : TFChain := ⟨child.path, child.name, child.for_each_index⟩ :: copy
      let s2 := _update_children_foreach_index fuel' original_foreach_or_count_key
        original_module_key child_module_key true s1
      updateChildrenLoop fuel' original_foreach_or_count_key original_module_key
        should_override_foreach_key is' pending s2

end

/-- `_update_module_children` (source lines 108-118): the original key of the expanded
module, with the foreach index set to the instance key exactly when this is not the
override (first) instance. -/
def _update_module_children (fuel : Nat) (main_resource : TerraformBlock)
    (original_foreach_or_count_key : FVal) (should_override_foreach_key : Bool)
    (s : TerraformLocalGraph) : TerraformLocalGraph :=
  let okey0 : TFChain :=
    ⟨main_resource.path, main_resource.name, none⟩ :: main_resource.source_module_object
  let okey : TFChain :=
    if should_override_foreach_key then okey0
    else setHeadForeach original_foreach_or_count_key okey0
  _update_children_foreach_index fuel original_foreach_or_count_key okey okey
    should_override_foreach_key s

/-- `_create_new_resources_count` (source lines 120-128): create the `n` clones first,
then run the children updates (override only for instance 0). -/
def _create_new_resources_count (fuel : Nat) (statement : Int) (block_idx : Nat)
    (s : TerraformLocalGraph) : TerraformLocalGraph :=
  let main_resource := getV s block_idx
  let s1 := (List.range statement.toNat).foldl
    (fun st i => _create_new_module fuel main_resource (FVal.vint (Int.ofNat i)) block_idx i none st) s
  (List.range statement.toNat).foldl
    (fun st i => _update_module_children fuel main_resource (FVal.vint (Int.ofNat i)) (i == 0) st) s1

/-- Modelled from the spec: `ForeachAbstractHandler._create_new_resources_foreach` is
not among the sources.  Per spec section 4.3 one clone is produced per sequence
element / mapping entry, a sequence element carrying no explicit key, a mapping entry
passing its key and value; any other statement shape has no handling. -/
def _create_new_resources_foreach_abstract (fuel : Nat) (statement : FEStatement)
    (block_idx : Nat) (s : TerraformLocalGraph) : TerraformLocalGraph :=
  let main_resource := getV s block_idx
  match statement with
  | FEStatement.fseq xs =>
    xs.enum.foldl
      (fun st iv => _create_new_foreach_resource fuel block_idx iv.1 main_resource none iv.2 st) s
  | FEStatement.fmap kvs =>
    kvs.enum.foldl
      (fun st ikv =>
        _create_new_foreach_resource fuel block_idx ikv.1 main_resource (some ikv.2.1) ikv.2.2 st) s
  | _ => s

/-- `ForeachModuleHandler._create_new_resources_foreach` (source lines 89-101): capture
the pre-expansion block, run the abstract creation, then update the children once per
element/entry — the sequence case passes the element value, the mapping case passes the
mapping key; a statement that is neither falls through silently. -/
def _create_new_resources_foreach (fuel : Nat) (statement : FEStatement) (block_idx : Nat)
    (s : TerraformLocalGraph) : TerraformLocalGraph :=
  let main_resource := getV s block_idx
  let s1 := _create_new_resources_foreach_abstract fuel statement block_idx s
  match statement with
  | FEStatement.fseq xs =>
    xs.enum.foldl
      (fun st iv => _update_module_children fuel main_resource iv.2 (iv.1 == 0) st) s1
  | FEStatement.fmap kvs =>
    kvs.enum.foldl
      (fun st ikv => _update_module_children fuel main_resource ikv.2.1 (ikv.1 == 0) st) s1
  | _ => s1

/-- `_duplicate_module_with_for_each` (source lines 70-71). -/
def _duplicate_module_with_for_each (fuel : Nat) (module_idx : Nat) (for_each : FEStatement)
    (s : TerraformLocalGraph) : TerraformLocalGraph :=
  _create_new_resources_foreach fuel for_each module_idx s

/-- A Python exception escaping the handler: `range(statement)` with a non-integer
argument raises `TypeError` (source line 122), and nothing in the file catches it.
The payload records the offending statement; the real `TypeError` message names only
the argument's type, never the offending block. -/
inductive PyError where
  | typeError (offending : FEStatement)
  deriving DecidableEq, Repr

/-- `_duplicate_module_with_count` (source lines 73-74) feeding
`_create_new_resources_count` (source lines 120-128).  The integer loop body is
`_create_new_resources_count`; the `range(statement)` call it makes is unguarded, so
the argument check lives at this boundary: an integer enters the loop, a Python
`bool` also enters it (`bool` is an `int` subclass, `range(True)` is `range(1)`), and
any other statement raises `TypeError` — propagated, not caught. -/
def _duplicate_module_with_count (fuel : Nat) (module_idx : Nat) (count : FEStatement)
    (s : TerraformLocalGraph) : Except PyError TerraformLocalGraph :=
  match count with
  | FEStatement.fint n => Except.ok (_create_new_resources_count fuel n module_idx s)
  | FEStatement.fother (FVal.vbool b) =>
    Except.ok (_create_new_resources_count fuel (if b then 1 else 0) module_idx s)
  | _ => Except.error (PyError.typeError count)

/-- Modelled from the spec: the Static-Resolution Oracle and Attribute Renderer
collaborators (section 4.2 / section 6) live outside the sources and are parameters of
the embedding.  `renderA`/`renderC` may change only a block's attributes and config,
exactly the mutation surface the spec grants the renderer. -/
structure Collaborators where
  isStatic : TerraformLocalGraph → Nat → Bool
  resolveStmt : TerraformLocalGraph → Nat → FEStatement
  renderA : TerraformBlock → List (String × FEStatement)
  renderC : TerraformBlock → ConfigVal

/-- Apply the renderer to the candidate blocks (the blocks of `modules_blocks`),
touching only their attributes and config. -/
def renderVerts (c : Collaborators) (modules_blocks : List Nat) :
    Nat → List TerraformBlock → List TerraformBlock
  | _, [] => []
  | i, b :: rest =>
    (if modules_blocks.contains i then
      { b with attributes := c.renderA b, config := c.renderC b }
     else b) :: renderVerts c modules_blocks (i + 1) rest

/-- Modelled from the spec: `_build_sub_graph` / `_render_sub_graph` of
`ForeachAbstractHandler` are not among the sources; per spec section 6 the renderer
"mutates blocks' config/attributes in place, resolving as many expressions as currently
knowable; invoked once per scheduler round".  The bounded-subgraph restriction is an
optimisation, so the renderer is applied to the candidate blocks of the main graph. -/
def _render_sub_graph (c : Collaborators) (modules_blocks : List Nat)
    (s : TerraformLocalGraph) : TerraformLocalGraph :=
  { s with vertices := renderVerts c modules_blocks 0 s.vertices }

/-- The per-module body of the loop of `_render_foreach_modules_by_levels`
(source lines 54-67): truthiness-gate on the raw attributes, then ask the oracle,
then duplicate.  A `TypeError` raised on the count path propagates out. -/
def processModuleE (c : Collaborators) (fuel : Nat) (s : TerraformLocalGraph)
    (module_idx : Nat) : Except PyError TerraformLocalGraph :=
  let module_block := getV s module_idx
  let for_each := lookupStr module_block.attributes FOREACH_STRING
  let count := lookupStr module_block.attributes COUNT_STRING
  if optTruthy for_each then
    if c.isStatic s module_idx then
      Except.ok (_duplicate_module_with_for_each fuel module_idx
        (c.resolveStmt s module_idx) s)
    else Except.ok s
  else if optTruthy count then
    if c.isStatic s module_idx then
      _duplicate_module_with_count fuel module_idx (c.resolveStmt s module_idx) s
    else Except.ok s
  else Except.ok s

/-- Total projection of `processModuleE`, used by the claims whose hypotheses keep
execution on the non-raising path; `processModule_of_ok` records the agreement.  On
the raising path (truthy, static, non-integer count) the source does not return a
graph at all — the exception escapes, see `processModuleE` and `handleE`. -/
def processModule (c : Collaborators) (fuel : Nat) (s : TerraformLocalGraph)
    (module_idx : Nat) : TerraformLocalGraph :=
  match processModuleE c fuel s module_idx with
  | Except.ok t => t
  | Except.error _ => s

/-- `_get_current_tf_module_object` (source lines 84-87): the level key of a processed
module — its name truncated at the first `[` (Python `m.name.split('[')[0]`), combined
with its current foreach index and source module object. -/
def _get_current_tf_module_object (s : TerraformLocalGraph) (m_idx : Nat) : TFChain :=
  let m := getV s m_idx
  ⟨m.path, String.mk (m.name.toList.takeWhile (fun ch => ch ≠ '[')), m.for_each_index⟩ ::
    m.source_module_object

/-- `_get_modules_to_render` (source lines 76-82): the MODULE members under the first
key of the current level become the rendered modules; their reconstructed keys become
the new level; the next schedule is the concatenation of the MODULE members under the
new level's keys. -/
def _get_modules_to_render (s : TerraformLocalGraph) (current_level : List TFChain) :
    List TFChain × List Nat :=
  let rendered_modules :=
    ((current_level.map
      (fun curr => groupsGet (memGetD s.vertices_by_module_dependency curr) BlockType.module)).headD [])
  let new_level := rendered_modules.map (fun m_idx => _get_current_tf_module_object s m_idx)
  let modules_to_render :=
    (new_level.map
      (fun curr => groupsGet (memGetD s.vertices_by_module_dependency curr) BlockType.module)).flatten
  (new_level, modules_to_render)

/-- `_render_foreach_modules_by_levels` (source lines 37-68): render, process every
scheduled module, then derive the next level and schedule. -/
def _render_foreach_modules_by_levels (c : Collaborators) (fuel : Nat)
    (modules_blocks : List Nat) (modules_to_render : List Nat)
    (current_level : List TFChain) (s : TerraformLocalGraph) :
    TerraformLocalGraph × List TFChain × List Nat :=
  let s1 := _render_sub_graph c modules_blocks s
  let s2 := modules_to_render.foldl (fun st i => processModule c fuel st i) s1
  let p := _get_modules_to_render s2 current_level
  (s2, p.1, p.2)

/-- The `while modules_to_render:` loop of `handle` (source lines 34-35), with fuel. -/
def handleLoop (c : Collaborators) (fuel : Nat) (modules_blocks : List Nat)
    (modules_to_render : List Nat) (current_level : List TFChain)
    (s : TerraformLocalGraph) : TerraformLocalGraph :=
  match fuel with
  | 0 => s
  | fuel' + 1 =>
    match modules_to_render with
    | [] => s
    | _ =>
      let r := _render_foreach_modules_by_levels c fuel' modules_blocks modules_to_render
        current_level s
      handleLoop c fuel' modules_blocks r.2.2 r.2.1 r.1

/-- `handle` (source lines 24-35): no-op on an empty candidate list, else loop from the
root level (`current_level = [None]`, schedule = the root MODULE members). -/
def handle (c : Collaborators) (fuel : Nat) (modules_blocks : List Nat)
    (s : TerraformLocalGraph) : TerraformLocalGraph :=
  match modules_blocks with
  | [] => s
  | _ =>
    let main_module_modules :=
      groupsGet (memGetD s.vertices_by_module_dependency []) BlockType.module
    handleLoop c fuel modules_blocks main_module_modules [[]] s

/-- The `for module_idx in modules_to_render` loop (source lines 54-67) with the
exception path kept: the iterations are sequential and an exception aborts the rest
of the loop and propagates. -/
def processLoopE (c : Collaborators) (fuel : Nat) :
    List Nat → TerraformLocalGraph → Except PyError TerraformLocalGraph
  | [], s => Except.ok s
  | i :: rest, s =>
    match processModuleE c fuel s i with
    | Except.ok t => processLoopE c fuel rest t
    | Except.error e => Except.error e

/-- `_render_foreach_modules_by_levels` with the exception path kept. -/
def _render_foreach_modules_by_levels_e (c : Collaborators) (fuel : Nat)
    (modules_blocks : List Nat) (modules_to_render : List Nat)
    (current_level : List TFChain) (s : TerraformLocalGraph) :
    Except PyError (TerraformLocalGraph × List TFChain × List Nat) :=
  match processLoopE c fuel modules_to_render (_render_sub_graph c modules_blocks s) with
  | Except.ok s2 =>
    Except.ok (s2, (_get_modules_to_render s2 current_level).1,
      (_get_modules_to_render s2 current_level).2)
  | Except.error e => Except.error e

/-- The `while modules_to_render:` loop (source lines 34-35) with the exception path
kept, fuelled. -/
def handleLoopE (c : Collaborators) (fuel : Nat) (modules_blocks : List Nat)
    (modules_to_render : List Nat) (current_level : List TFChain)
    (s : TerraformLocalGraph) : Except PyError TerraformLocalGraph :=
  match fuel with
  | 0 => Except.ok s
  | fuel' + 1 =>
    match modules_to_render with
    | [] => Except.ok s
    | _ =>
      match _render_foreach_modules_by_levels_e c fuel' modules_blocks modules_to_render
        current_level s with
      | Except.ok r => handleLoopE c fuel' modules_blocks r.2.2 r.2.1 r.1
      | Except.error e => Except.error e

/-- `handle` (source lines 24-35) with the exception path kept: a `TypeError` raised
while multiplying a truthy, static, non-integer `count` propagates out of the
subsystem to the caller. -/
def handleE (c : Collaborators) (fuel : Nat) (modules_blocks : List Nat)
    (s : TerraformLocalGraph) : Except PyError TerraformLocalGraph :=
  match modules_blocks with
  | [] => Except.ok s
  | _ =>
    handleLoopE c fuel modules_blocks
      (groupsGet (memGetD s.vertices_by_module_dependency []) BlockType.module) [[]] s

end ForeachModule

namespace ForeachModule

/-! ### Basic lemmas about the list and map helpers -/

theorem getD_cons_succ' {α : Type} (x : α) (xs : List α) (j : Nat) (d : α) :
    (x :: xs).getD (j + 1) d = xs.getD j d := rfl

theorem getD_append_left {α : Type} (l t : List α) (j : Nat) (d : α) (h : j < l.length) :
    (l ++ t).getD j d = l.getD j d := by
  induction l generalizing j with
  | nil => simp at h
  | cons x xs ih =>
    cases j with
    | zero => rfl
    | succ j' =>
      have hj : j' < xs.length := by simpa using h
      simpa [getD_cons_succ'] using ih j' hj

theorem getD_append_at {α : Type} (l : List α) (x : α) (t : List α) (d : α) :
    (l ++ x :: t).getD l.length d = x := by
  induction l with
  | nil => rfl
  | cons y ys ih => simpa [getD_cons_succ'] using ih

theorem set_oob {α : Type} (l : List α) (i : Nat) (b : α) (h : l.length ≤ i) :
    l.set i b = l := by
  induction l generalizing i with
  | nil => rfl
  | cons x xs ih =>
    cases i with
    | zero => simp at h
    | succ i' => simp [List.set, ih i' (by simpa using h)]

theorem getD_set_self {α : Type} (l : List α) (i : Nat) (b : α) (d : α) (h : i < l.length) :
    (l.set i b).getD i d = b := by
  induction l generalizing i with
  | nil => simp at h
  | cons x xs ih =>
    cases i with
    | zero => rfl
    | succ i' => simpa [List.set, getD_cons_succ'] using ih i' (by simpa using h)

theorem getD_set_ne {α : Type} (l : List α) (i j : Nat) (b : α) (d : α) (h : i ≠ j) :
    (l.set i b).getD j d = l.getD j d := by
  induction l generalizing i j with
  | nil => rfl
  | cons x xs ih =>
    cases i with
    | zero =>
      cases j with
      | zero => exact absurd rfl h
      | succ j' => rfl
    | succ i' =>
      cases j with
      | zero => rfl
      | succ j' => simpa [List.set, getD_cons_succ'] using ih i' j' (by omega)

theorem memFind_memSet_self (m : DepMap) (k : TFChain) (v : VertexGroups) :
    memFind (memSet m k v) k = some v := by
  induction m with
  | nil => simp [memSet, memFind]
  | cons p rest ih =>
    by_cases h : p.1 = k
    · simp [memSet, memFind, h]
    · simp [memSet, memFind, h, ih]

theorem memFind_memSet_ne (m : DepMap) (k k' : TFChain) (v : VertexGroups) (h : k' ≠ k) :
    memFind (memSet m k v) k' = memFind m k' := by
  induction m with
  | nil => simp [memSet, memFind, Ne.symm h]
  | cons p rest ih =>
    by_cases hp : p.1 = k
    · simp [memSet, memFind, hp, Ne.symm h, h]
    · simp [memSet, memFind, hp, ih]

theorem memFind_memAppendIdx_ne (m : DepMap) (k k' : TFChain) (bt : BlockType) (i : Nat)
    (h : k' ≠ k) : memFind (memAppendIdx m k bt i) k' = memFind m k' :=
  memFind_memSet_ne _ _ _ _ h

end ForeachModule

namespace ForeachModule

@[simp] theorem memAppendIdxState_vertices (s : TerraformLocalGraph) (k : TFChain)
    (bt : BlockType) (i : Nat) : (memAppendIdxState s k bt i).vertices = s.vertices := rfl

@[simp] theorem setV_vertices (s : TerraformLocalGraph) (i : Nat) (b : TerraformBlock) :
    (setV s i b).vertices = s.vertices.set i b := rfl

@[simp] theorem setV_dep (s : TerraformLocalGraph) (i : Nat) (b : TerraformBlock) :
    (setV s i b).vertices_by_module_dependency = s.vertices_by_module_dependency := rfl

/-- The subtree-copy engine only appends vertices: the old vertex list is a prefix of
the new one, for both functions of the mutual pair. -/
theorem engine_appends (fuel : Nat) :
    (∀ mr v ri k s, s.vertices <+:
      (_create_new_module_with_vertices fuel mr v ri k s).vertices) ∧
    (∀ key bt is pending nrvi acc s, s.vertices <+:
      (addNewVerticesLoop fuel key bt is pending nrvi acc s).1.vertices) := by
  induction fuel with
  | zero =>
    constructor
    · intro mr v ri k s
      simp [_create_new_module_with_vertices]
    · intro key bt is pending nrvi acc s
      simp [addNewVerticesLoop]
  | succ n ih =>
    constructor
    · intro mr v ri k s
      have step : ∀ key bt is pending nrvi acc (s' : TerraformLocalGraph),
          s.vertices <+: s'.vertices →
          s.vertices <+: (addNewVerticesLoop n key bt is pending nrvi acc s').1.vertices :=
        fun _ _ _ _ _ _ s' h => h.trans (ih.2 _ _ _ _ _ _ s')
      simp only [_create_new_module_with_vertices]
      apply step
      simp
    · intro key bt is pending nrvi acc s
      have step : ∀ key bt is pending nrvi acc (s' : TerraformLocalGraph),
          s.vertices <+: s'.vertices →
          s.vertices <+: (addNewVerticesLoop n key bt is pending nrvi acc s').1.vertices :=
        fun _ _ _ _ _ _ s' h => h.trans (ih.2 _ _ _ _ _ _ s')
      have stepC : ∀ mr v ri k (s' : TerraformLocalGraph),
          s.vertices <+: s'.vertices →
          s.vertices <+: (_create_new_module_with_vertices n mr v ri k s').vertices :=
        fun _ _ _ _ s' h => h.trans (ih.1 _ _ _ _ s')
      cases is with
      | nil =>
        cases pending with
        | nil => simp [addNewVerticesLoop]
        | cons g rest =>
          simp only [addNewVerticesLoop]
          apply step
          exact List.prefix_rfl
      | cons i is' =>
        simp only [addNewVerticesLoop]
        by_cases hbt : bt = BlockType.module
        · rw [if_pos hbt]
          apply step
          apply stepC
          simp
        · rw [if_neg hbt]
          apply step
          simp

/-- Existing vertex slots are untouched by the subtree-copy engine. -/
theorem cnm_getV_preserved (fuel : Nat) (mr : TerraformBlock) (v : VertexGroups)
    (ri : Nat) (k : Option TFChain) (s : TerraformLocalGraph) (j : Nat)
    (h : j < s.vertices.length) :
    getV (_create_new_module_with_vertices fuel mr v ri k s) j = getV s j := by
  obtain ⟨t, ht⟩ := (engine_appends fuel).1 mr v ri k s
  simp only [getV]
  rw [← ht]
  exact getD_append_left _ _ _ _ h

theorem cnm_length_le (fuel : Nat) (mr : TerraformBlock) (v : VertexGroups)
    (ri : Nat) (k : Option TFChain) (s : TerraformLocalGraph) :
    s.vertices.length ≤ (_create_new_module_with_vertices fuel mr v ri k s).vertices.length :=
  ((engine_appends fuel).1 mr v ri k s).length_le

end ForeachModule


namespace ForeachModule

/-- The block fields that the identity-propagation walk never writes (everything except
`source_module_object` and `config`). -/
def sameSkel (a b : TerraformBlock) : Prop :=
  a.name = b.name ∧ a.path = b.path ∧ a.block_type = b.block_type ∧
  a.attributes = b.attributes ∧ a.source_module = b.source_module ∧
  a.for_each_index = b.for_each_index

theorem sameSkel_refl (a : TerraformBlock) : sameSkel a a :=
  ⟨rfl, rfl, rfl, rfl, rfl, rfl⟩

theorem sameSkel_trans {a b c : TerraformBlock} (h1 : sameSkel a b) (h2 : sameSkel b c) :
    sameSkel a c := by
  obtain ⟨e1, e2, e3, e4, e5, e6⟩ := h1
  obtain ⟨f1, f2, f3, f4, f5, f6⟩ := h2
  exact ⟨e1.trans f1, e2.trans f2, e3.trans f3, e4.trans f4, e5.trans f5, e6.trans f6⟩

/-- `_update_resolved_entry_for_tf_definition` rewrites only the config. -/
theorem upd_resolved_fields (b : TerraformBlock) (k : FVal) (okey : TFChain) :
    sameSkel (_update_resolved_entry_for_tf_definition b k okey) b ∧
    (_update_resolved_entry_for_tf_definition b k okey).source_module_object
      = b.source_module_object := by
  unfold _update_resolved_entry_for_tf_definition
  split
  · dsimp only
    split
    · split
      · exact ⟨⟨rfl, rfl, rfl, rfl, rfl, rfl⟩, rfl⟩
      · exact ⟨sameSkel_refl _, rfl⟩
    · exact ⟨sameSkel_refl _, rfl⟩
  · split
    · exact ⟨⟨rfl, rfl, rfl, rfl, rfl, rfl⟩, rfl⟩
    · exact ⟨sameSkel_refl _, rfl⟩

theorem getV_setV_skel (s : TerraformLocalGraph) (i : Nat) (b : TerraformBlock) (j : Nat)
    (h : sameSkel b (getV s i)) : sameSkel (getV (setV s i b) j) (getV s j) := by
  by_cases hij : i = j
  · subst hij
    by_cases hlen : i < s.vertices.length
    · rw [getV, setV_vertices, getD_set_self _ _ _ _ hlen]
      exact h
    · rw [getV, setV_vertices, set_oob _ _ _ (le_of_not_lt hlen)]
      exact sameSkel_refl _
  · rw [getV, setV_vertices, getD_set_ne _ _ _ _ _ hij]
    exact sameSkel_refl _

/-- The identity-propagation walk (`_update_children_foreach_index`, at every recursion
depth) never changes the membership index, the number of vertices, or any vertex's
name, path, block type, attributes, back references or — in particular — its own
`for_each_index`; it only rewrites `source_module_object` and config entries. -/
theorem updChildren_preserves (fuel : Nat) :
    (∀ k okey cur ov s,
      (_update_children_foreach_index fuel k okey cur ov s).vertices_by_module_dependency
          = s.vertices_by_module_dependency ∧
      (_update_children_foreach_index fuel k okey cur ov s).vertices.length
          = s.vertices.length ∧
      (∀ j, sameSkel (getV (_update_children_foreach_index fuel k okey cur ov s) j)
          (getV s j))) ∧
    (∀ k okey ov is pending s,
      (updateChildrenLoop fuel k okey ov is pending s).vertices_by_module_dependency
          = s.vertices_by_module_dependency ∧
      (updateChildrenLoop fuel k okey ov is pending s).vertices.length
          = s.vertices.length ∧
      (∀ j, sameSkel (getV (updateChildrenLoop fuel k okey ov is pending s) j)
          (getV s j))) := by
  induction fuel with
  | zero =>
    constructor
    · intro k okey cur ov s
      exact ⟨rfl, rfl, fun j => sameSkel_refl _⟩
    · intro k okey ov is pending s
      exact ⟨rfl, rfl, fun j => sameSkel_refl _⟩
  | succ n ih =>
    constructor
    · intro k okey cur ov s
      simp only [_update_children_foreach_index]
      cases hm : memFind s.vertices_by_module_dependency cur with
      | none => exact ⟨rfl, rfl, fun j => sameSkel_refl _⟩
      | some groups => exact ih.2 _ _ _ _ _ _
    · intro k okey ov is pending s
      cases is with
      | nil =>
        cases pending with
        | nil =>
          simp only [updateChildrenLoop]
          exact ⟨by trivial, by trivial, fun j => sameSkel_refl _⟩
        | cons g rest =>
          simp only [updateChildrenLoop]
          exact ih.2 _ _ _ _ _ _
      | cons child_index is' =>
        simp only [updateChildrenLoop]
        refine ⟨?_, ?_, ?_⟩
        · rw [(ih.2 _ _ _ _ _ _).1, (ih.1 _ _ _ _ _).1, setV_dep]
        · rw [(ih.2 _ _ _ _ _ _).2.1, (ih.1 _ _ _ _ _).2.1]
          simp [setV_vertices]
        · intro j
          refine sameSkel_trans ((ih.2 _ _ _ _ _ _).2.2 j) ?_
          refine sameSkel_trans ((ih.1 _ _ _ _ _).2.2 j) ?_
          apply getV_setV_skel
          refine sameSkel_trans (upd_resolved_fields _ k okey).1 ?_
          exact ⟨rfl, rfl, rfl, rfl, rfl, rfl⟩

end ForeachModule

namespace ForeachModule

theorem updModuleChildren_preserves (fuel : Nat) (main : TerraformBlock) (k : FVal)
    (ov : Bool) (s : TerraformLocalGraph) :
    (_update_module_children fuel main k ov s).vertices_by_module_dependency
        = s.vertices_by_module_dependency ∧
    (_update_module_children fuel main k ov s).vertices.length = s.vertices.length ∧
    (∀ j, sameSkel (getV (_update_module_children fuel main k ov s) j) (getV s j)) := by
  unfold _update_module_children
  exact (updChildren_preserves fuel).1 _ _ _ _ _

/-- The membership entry installed by `_create_new_module_with_vertices` under the new
instance key. -/
theorem cnm_succ_installs (fuel : Nat) (mr : TerraformBlock) (v : VertexGroups) (ri : Nat)
    (key : TFChain) (s : TerraformLocalGraph) :
    ∃ g, memFind
      (_create_new_module_with_vertices (fuel+1) mr v ri (some key) s).vertices_by_module_dependency
      key = some g := by
  simp only [_create_new_module_with_vertices, Option.getD_some]
  exact ⟨_, memFind_memSet_self _ _ _⟩

theorem create_new_module_getV_other (fuel : Nat) (main : TerraformBlock) (v : FVal)
    (ri p : Nat) (k : Option FVal) (s : TerraformLocalGraph) (j : Nat) (hj : j ≠ ri)
    (hlen : j < s.vertices.length) :
    getV (_create_new_module fuel main v ri p k s) j = getV s j := by
  simp only [_create_new_module]
  by_cases hp : p = 0
  · subst hp
    rw [if_neg (by simp)]
    show (s.vertices.set ri _).getD j defaultBlock = _
    rw [getD_set_ne _ _ _ _ _ (fun h => hj h.symm)]
    rfl
  · rw [if_pos hp]
    have h1 : j < (s.vertices ++ [_update_resolved_entry_for_tf_definition
        (_update_block_name_and_id
          { _update_foreach_attrs main k v with for_each_index := some (pyOr k v) }
          (pyOr k v)) (pyOr k v)
        (⟨main.path, main.name, none⟩ :: main.source_module_object)]).length := by
      simp
      omega
    rw [cnm_getV_preserved _ _ _ _ _ _ _ (by simpa using h1)]
    show (s.vertices ++ [_]).getD j defaultBlock = _
    rw [getD_append_left _ _ _ _ hlen]
    rfl

theorem create_new_module_length_le (fuel : Nat) (main : TerraformBlock) (v : FVal)
    (ri p : Nat) (k : Option FVal) (s : TerraformLocalGraph) :
    s.vertices.length ≤ (_create_new_module fuel main v ri p k s).vertices.length := by
  simp only [_create_new_module]
  by_cases hp : p = 0
  · subst hp
    rw [if_neg (by simp)]
    show _ ≤ (s.vertices.set ri _).length
    simp
  · rw [if_pos hp]
    refine le_trans ?_ (cnm_length_le fuel _ _ _ _ _)
    simp

end ForeachModule

namespace ForeachModule

/-- Reading the overwritten slot after the position-0 override. -/
theorem set_slot_facts (s : TerraformLocalGraph) (ri : Nat) (nr : TerraformBlock)
    (dep : DepMap) (hlen : ri < s.vertices.length) :
    getV { setV s ri nr with vertices_by_module_dependency := dep } ri = nr ∧
    ({ setV s ri nr with vertices_by_module_dependency := dep } :
        TerraformLocalGraph).vertices.length = s.vertices.length := by
  constructor
  · show (s.vertices.set ri nr).getD ri defaultBlock = nr
    exact getD_set_self _ _ _ _ hlen
  · show (s.vertices.set ri nr).length = s.vertices.length
    simp

/-- Facts about appending a clone and then running the subtree-copy engine: existing
slots are untouched, the vertex list grows, and the appended clone sits at the old
length. -/
theorem append_then_cnm_facts (fuel : Nat) (mr : TerraformBlock) (val : VertexGroups)
    (ri : Nat) (key : TFChain) (s : TerraformLocalGraph) (nr : TerraformBlock) :
    (∀ j, j < s.vertices.length →
      getV (_create_new_module_with_vertices fuel mr val ri (some key)
        { s with vertices := s.vertices ++ [nr] }) j = getV s j) ∧
    s.vertices.length < (_create_new_module_with_vertices fuel mr val ri (some key)
        { s with vertices := s.vertices ++ [nr] }).vertices.length ∧
    getV (_create_new_module_with_vertices fuel mr val ri (some key)
        { s with vertices := s.vertices ++ [nr] }) s.vertices.length = nr := by
  obtain ⟨t, ht⟩ := (engine_appends fuel).1 mr val ri (some key)
    { s with vertices := s.vertices ++ [nr] }
  have ht' : (_create_new_module_with_vertices fuel mr val ri (some key)
      { s with vertices := s.vertices ++ [nr] }).vertices = s.vertices ++ (nr :: t) := by
    rw [← ht]
    simp
  refine ⟨?_, ?_, ?_⟩
  · intro j hj
    show (_create_new_module_with_vertices fuel mr val ri (some key)
      { s with vertices := s.vertices ++ [nr] }).vertices.getD j defaultBlock = getV s j
    rw [ht', getD_append_left _ _ _ _ hj]
    rfl
  · rw [ht']
    simp
  · show (_create_new_module_with_vertices fuel mr val ri (some key)
      { s with vertices := s.vertices ++ [nr] }).vertices.getD s.vertices.length defaultBlock
      = nr
    rw [ht', getD_append_at]

/-- **C1.**  For every module expansion (`for_each` and `count` both go through
`_create_new_module`, at positions `foreach_idx = 0 .. N-1`): the clone produced at
position 0 overwrites the original vertex slot in place — the vertex list keeps its
length, the original index afterwards holds the instance clone (its `for_each_index` is
the new instance key, its name encodes it, its `source_module_object` is unchanged) —
and the membership index maps the new instance key to the module's existing
pre-expansion membership value; every clone at a position `p ≠ 0` leaves all existing
slots untouched, is appended as a newly allocated vertex index (the old length), and a
membership entry keyed by its own instance key is installed. -/
theorem c1_first_clone_overrides_later_clones_append (fuel : Nat) (main : TerraformBlock)
    (v : FVal) (k : Option FVal) (ri p : Nat) (s : TerraformLocalGraph) :
    (p = 0 → ri < s.vertices.length →
      (_create_new_module (fuel+1) main v ri p k s).vertices.length = s.vertices.length ∧
      (getV (_create_new_module (fuel+1) main v ri p k s) ri).for_each_index
          = some (pyOr k v) ∧
      (getV (_create_new_module (fuel+1) main v ri p k s) ri).name
          = main.name ++ "[" ++ fvalStr (pyOr k v) ++ "]" ∧
      (getV (_create_new_module (fuel+1) main v ri p k s) ri).source_module_object
          = main.source_module_object ∧
      (_create_new_module (fuel+1) main v ri p k s).vertices_by_module_dependency
          = memSet s.vertices_by_module_dependency (instKeyOf main (pyOr k v))
              (memGetD s.vertices_by_module_dependency (preKeyOf main))) ∧
    (p ≠ 0 →
      (∀ j, j < s.vertices.length →
          getV (_create_new_module (fuel+1) main v ri p k s) j = getV s j) ∧
      s.vertices.length < (_create_new_module (fuel+1) main v ri p k s).vertices.length ∧
      (getV (_create_new_module (fuel+1) main v ri p k s) s.vertices.length).for_each_index
          = some (pyOr k v) ∧
      (getV (_create_new_module (fuel+1) main v ri p k s) s.vertices.length).name
          = main.name ++ "[" ++ fvalStr (pyOr k v) ++ "]" ∧
      ∃ g, memFind
          (_create_new_module (fuel+1) main v ri p k s).vertices_by_module_dependency
          (instKeyOf main (pyOr k v)) = some g) := by
  constructor
  · intro hp hlen
    subst hp
    simp only [_create_new_module]
    rw [if_neg (by simp)]
    refine ⟨(set_slot_facts s ri _ _ hlen).2, ?_, ?_, ?_, ?_⟩
    · rw [(set_slot_facts s ri _ _ hlen).1,
        (upd_resolved_fields _ _ _).1.2.2.2.2.2]
      rfl
    · rw [(set_slot_facts s ri _ _ hlen).1, (upd_resolved_fields _ _ _).1.1]
      rfl
    · rw [(set_slot_facts s ri _ _ hlen).1, (upd_resolved_fields _ _ _).2]
      rfl
    · rfl
  · intro hp
    simp only [_create_new_module]
    rw [if_pos hp]
    refine ⟨(append_then_cnm_facts _ _ _ _ _ _ _).1, (append_then_cnm_facts _ _ _ _ _ _ _).2.1,
      ?_, ?_, ?_⟩
    · rw [(append_then_cnm_facts _ _ _ _ _ _ _).2.2,
        (upd_resolved_fields _ _ _).1.2.2.2.2.2]
      rfl
    · rw [(append_then_cnm_facts _ _ _ _ _ _ _).2.2, (upd_resolved_fields _ _ _).1.1]
      rfl
    · exact cnm_succ_installs fuel _ _ _ _ _

end ForeachModule

namespace ForeachModule

/-- The clone built by `_create_new_module` before it is stored: the main block with
`for_each_index = new_key or new_value`, the instance-suffixed name, and the rewritten
resolved-module config entry. -/
def cloneBlock (main : TerraformBlock) (k : Option FVal) (v : FVal) : TerraformBlock :=
  _update_resolved_entry_for_tf_definition
    (_update_block_name_and_id { main with for_each_index := some (pyOr k v) } (pyOr k v))
    (pyOr k v) (preKeyOf main)

/-- Exact state produced by the position-0 (override) branch of `_create_new_module`. -/
theorem create_new_module_zero_eq (fuel : Nat) (main : TerraformBlock) (v : FVal)
    (ri : Nat) (k : Option FVal) (s : TerraformLocalGraph) :
    _create_new_module fuel main v ri 0 k s =
      TerraformLocalGraph.mk (s.vertices.set ri (cloneBlock main k v))
        (memSet s.vertices_by_module_dependency (instKeyOf main (pyOr k v))
          (memGetD s.vertices_by_module_dependency (preKeyOf main))) := rfl

/-- Exact call made by the non-zero-position branch of `_create_new_module`. -/
theorem create_new_module_pos_eq (fuel : Nat) (main : TerraformBlock) (v : FVal)
    (ri p : Nat) (k : Option FVal) (s : TerraformLocalGraph) (hp : p ≠ 0) :
    _create_new_module fuel main v ri p k s =
      _create_new_module_with_vertices fuel main
        (memGetD s.vertices_by_module_dependency (preKeyOf main)) ri
        (some (instKeyOf main (pyOr k v)))
        { s with vertices := s.vertices ++ [cloneBlock main k v] } := by
  simp only [_create_new_module]
  rw [if_pos hp]
  rfl

/-- Exact state produced by the subtree-copy engine when the module has no membership
value (no descendants): only the parent registration and the new instance entry. -/
theorem cnm_empty_value (fuel : Nat) (mr : TerraformBlock) (ri : Nat) (key : TFChain)
    (s : TerraformLocalGraph) :
    _create_new_module_with_vertices (fuel+1) mr [] ri (some key) s
      = { s with vertices_by_module_dependency :=
            memSet (memAppendIdx s.vertices_by_module_dependency
              (clearHeadForeach (getV s ri).source_module_object) BlockType.module
              (s.vertices.length - 1)) key [] } := by
  cases fuel with
  | zero => rfl
  | succ n => rfl

theorem updLoop_nil (fuel : Nat) (k : FVal) (okey : TFChain) (ov : Bool)
    (s : TerraformLocalGraph) : updateChildrenLoop fuel k okey ov [] [] s = s := by
  cases fuel <;> rfl

/-- The walk is a no-op on a key without a membership entry (source line 138). -/
theorem updChildren_of_find_none (fuel : Nat) (k : FVal) (okey cur : TFChain) (ov : Bool)
    (s : TerraformLocalGraph) (h : memFind s.vertices_by_module_dependency cur = none) :
    _update_children_foreach_index fuel k okey cur ov s = s := by
  cases fuel with
  | zero => rfl
  | succ n =>
    simp only [_update_children_foreach_index]
    rw [h]

/-- The walk is a no-op on a key whose membership entry has no groups. -/
theorem updChildren_of_find_empty (fuel : Nat) (k : FVal) (okey cur : TFChain) (ov : Bool)
    (s : TerraformLocalGraph) (h : memFind s.vertices_by_module_dependency cur = some []) :
    _update_children_foreach_index fuel k okey cur ov s = s := by
  cases fuel with
  | zero => rfl
  | succ n =>
    simp only [_update_children_foreach_index]
    rw [h]
    exact updLoop_nil n _ _ _ _

theorem updModuleChildren_override_none (fuel : Nat) (main : TerraformBlock) (k : FVal)
    (s : TerraformLocalGraph)
    (h : memFind s.vertices_by_module_dependency (preKeyOf main) = none) :
    _update_module_children fuel main k true s = s :=
  updChildren_of_find_none fuel k _ _ true s h

theorem updModuleChildren_nonoverride_empty (fuel : Nat) (main : TerraformBlock) (k : FVal)
    (s : TerraformLocalGraph)
    (h : memFind s.vertices_by_module_dependency (instKeyOf main k) = some []) :
    _update_module_children fuel main k false s = s :=
  updChildren_of_find_empty fuel k _ _ false s h

theorem instKey_ne_preKey (b : TerraformBlock) (v : FVal) :
    instKeyOf b v ≠ preKeyOf b := by
  simp [instKeyOf, preKeyOf]

theorem instKey_ne_instKey (b : TerraformBlock) (v w : FVal) (h : v ≠ w) :
    instKeyOf b v ≠ instKeyOf b w := by
  simp [instKeyOf, h]

theorem clearHead_length (c : TFChain) : (clearHeadForeach c).length = c.length := by
  cases c <;> simp [clearHeadForeach]

theorem clearHead_ne_preKey (b : TerraformBlock) :
    clearHeadForeach b.source_module_object ≠ preKeyOf b := by
  intro h
  have := congrArg List.length h
  rw [clearHead_length] at this
  simp [preKeyOf] at this

theorem clearHead_ne_instKey (b : TerraformBlock) (v : FVal) :
    clearHeadForeach b.source_module_object ≠ instKeyOf b v := by
  intro h
  have := congrArg List.length h
  rw [clearHead_length] at this
  simp [instKeyOf] at this

/-- A root-level module with no children, used as the concrete fixture of the
scenario theorems. -/
def exModule : TerraformBlock :=
  { block_type := BlockType.module
    path := "main.tf"
    name := "m"
    config := ConfigVal.cleaf
    attributes := []
    source_module_object := []
    source_module := []
    for_each_index := none }

def exGraph : TerraformLocalGraph :=
  { vertices := [exModule]
    vertices_by_module_dependency := [([], [(BlockType.module, [0])])] }

/-- A resource nested inside `exModule`, already carrying a `for_each_index` of its
own, used to probe the identity-propagation walk. -/
def exChild : TerraformBlock :=
  { block_type := BlockType.resource
    path := "main.tf"
    name := "aws.x"
    config := ConfigVal.cleaf
    attributes := []
    source_module_object := [TFFrame.mk "main.tf" "m" none]
    source_module := [0]
    for_each_index := some (FVal.vstr "z") }

def exGraph2 : TerraformLocalGraph :=
  { vertices := [exModule, exChild]
    vertices_by_module_dependency :=
      [([], [(BlockType.module, [0])]),
       ([TFFrame.mk "main.tf" "m" none], [(BlockType.resource, [1])])] }

end ForeachModule

namespace ForeachModule

/-- **C2 counterexample.**  Expanding a `for_each` mapping whose single entry has the
falsy key `""` (value `"v"`): the produced override clone's `for_each_index` is the
entry's VALUE `"v"`, not the mapping key `""` — `idx_to_change = new_key or new_value`
(source line 173) drops falsy keys, so the claim "`for_each_index` = the mapping key,
for every key including falsy keys such as the empty string" is false. -/
theorem c2_counterexample :
    (getV (_create_new_resources_foreach 3
        (FEStatement.fmap [(FVal.vstr "", FVal.vstr "v")]) 0 exGraph) 0).for_each_index
      = some (FVal.vstr "v") ∧
    some (FVal.vstr "v") ≠ some (FVal.vstr "") := by
  constructor
  · rfl
  · simp

/-- **C2 (amended).**  Each produced clone receives
`for_each_index = new_key or new_value` under Python truthiness: for a mapping entry
the key when the key is truthy and the entry's VALUE when the key is falsy (such as
`""`); for a sequence element (no explicit key) always the element value.  Stated for
the clone at any position (override slot for position 0, the newly appended index
otherwise) and end-to-end for a singleton mapping/sequence statement. -/
theorem c2_amended_for_each_index_or_semantics (fuel : Nat) (main : TerraformBlock)
    (kx v x : FVal) (ri p : Nat) (s : TerraformLocalGraph) :
    (p = 0 → ri < s.vertices.length →
      (getV (_create_new_foreach_resource (fuel+1) ri p main (some kx) v s) ri).for_each_index
          = some (if kx.truthy then kx else v) ∧
      (getV (_create_new_foreach_resource (fuel+1) ri p main none v s) ri).for_each_index
          = some v) ∧
    (p ≠ 0 →
      (getV (_create_new_foreach_resource (fuel+1) ri p main (some kx) v s)
          s.vertices.length).for_each_index = some (if kx.truthy then kx else v) ∧
      (getV (_create_new_foreach_resource (fuel+1) ri p main none v s)
          s.vertices.length).for_each_index = some v) ∧
    (ri < s.vertices.length →
      (getV (_create_new_resources_foreach (fuel+1)
          (FEStatement.fmap [(kx, v)]) ri s) ri).for_each_index
          = some (if kx.truthy then kx else v) ∧
      (getV (_create_new_resources_foreach (fuel+1)
          (FEStatement.fseq [x]) ri s) ri).for_each_index = some x) := by
  refine ⟨?_, ?_, ?_⟩
  · intro hp hlen
    subst hp
    constructor
    · rw [show _create_new_foreach_resource (fuel+1) ri 0 main (some kx) v s
          = _create_new_module (fuel+1) main v ri 0 (some kx) s from rfl,
        create_new_module_zero_eq]
      show ((s.vertices.set ri _).getD ri defaultBlock).for_each_index = _
      rw [getD_set_self _ _ _ _ hlen]
      rw [show (cloneBlock main (some kx) v).for_each_index
          = ({ main with for_each_index := some (pyOr (some kx) v)} :
              TerraformBlock).for_each_index from
          ((upd_resolved_fields _ _ _).1.2.2.2.2.2)]
      rfl
    · rw [show _create_new_foreach_resource (fuel+1) ri 0 main none v s
          = _create_new_module (fuel+1) main v ri 0 none s from rfl,
        create_new_module_zero_eq]
      show ((s.vertices.set ri _).getD ri defaultBlock).for_each_index = _
      rw [getD_set_self _ _ _ _ hlen]
      rw [show (cloneBlock main none v).for_each_index
          = ({ main with for_each_index := some (pyOr none v)} :
              TerraformBlock).for_each_index from
          ((upd_resolved_fields _ _ _).1.2.2.2.2.2)]
      rfl
  · intro hp
    constructor
    · rw [show _create_new_foreach_resource (fuel+1) ri p main (some kx) v s
          = _create_new_module (fuel+1) main v ri p (some kx) s from rfl,
        create_new_module_pos_eq _ _ _ _ _ _ _ hp]
      rw [(append_then_cnm_facts _ _ _ _ _ _ _).2.2]
      rw [show (cloneBlock main (some kx) v).for_each_index
          = ({ main with for_each_index := some (pyOr (some kx) v)} :
              TerraformBlock).for_each_index from
          ((upd_resolved_fields _ _ _).1.2.2.2.2.2)]
      rfl
    · rw [show _create_new_foreach_resource (fuel+1) ri p main none v s
          = _create_new_module (fuel+1) main v ri p none s from rfl,
        create_new_module_pos_eq _ _ _ _ _ _ _ hp]
      rw [(append_then_cnm_facts _ _ _ _ _ _ _).2.2]
      rw [show (cloneBlock main none v).for_each_index
          = ({ main with for_each_index := some (pyOr none v)} :
              TerraformBlock).for_each_index from
          ((upd_resolved_fields _ _ _).1.2.2.2.2.2)]
      rfl
  · intro hlen
    constructor
    · rw [show _create_new_resources_foreach (fuel+1) (FEStatement.fmap [(kx, v)]) ri s
          = _update_module_children (fuel+1) (getV s ri) kx true
              (_create_new_module (fuel+1) (getV s ri) v ri 0 (some kx) s) from rfl]
      rw [((updModuleChildren_preserves (fuel+1) _ _ _ _).2.2 ri).2.2.2.2.2]
      rw [create_new_module_zero_eq]
      show ((s.vertices.set ri _).getD ri defaultBlock).for_each_index = _
      rw [getD_set_self _ _ _ _ hlen]
      rw [show (cloneBlock (getV s ri) (some kx) v).for_each_index
          = ({ getV s ri with for_each_index := some (pyOr (some kx) v)} :
              TerraformBlock).for_each_index from
          ((upd_resolved_fields _ _ _).1.2.2.2.2.2)]
      rfl
    · rw [show _create_new_resources_foreach (fuel+1) (FEStatement.fseq [x]) ri s
          = _update_module_children (fuel+1) (getV s ri) x true
              (_create_new_module (fuel+1) (getV s ri) x ri 0 none s) from rfl]
      rw [((updModuleChildren_preserves (fuel+1) _ _ _ _).2.2 ri).2.2.2.2.2]
      rw [create_new_module_zero_eq]
      show ((s.vertices.set ri _).getD ri defaultBlock).for_each_index = _
      rw [getD_set_self _ _ _ _ hlen]
      rw [show (cloneBlock (getV s ri) none x).for_each_index
          = ({ getV s ri with for_each_index := some (pyOr none x)} :
              TerraformBlock).for_each_index from
          ((upd_resolved_fields _ _ _).1.2.2.2.2.2)]
      rfl

end ForeachModule

namespace ForeachModule

/-- The per-child update performed by the identity-propagation walk: the child's
`source_module_object` is rewritten to carry the instance key, then its resolved
config entry is updated. -/
def walkedChild (k : FVal) (okey : TFChain) (c : TerraformBlock) : TerraformBlock :=
  _update_resolved_entry_for_tf_definition
    { c with source_module_object :=
        _update_nested_tf_module_foreach_idx k okey c.source_module_object }
    k okey

/-- **C3 counterexample.**  Running the identity-propagation walk for the override
(position-0) instance of `exModule` over `exGraph2`:  the child resource's
`source_module_object` is rewritten to carry the instance key `0`, but the child's own
`for_each_index` — which is `some "z"` — is NOT cleared; the claim that the walk
"clears the descendant's own for_each_index exactly when the ancestor instance is the
override instance" is false (the only foreach index ever cleared is the one on a local
copy of the child's source-module key used to build the recursion lookup key). -/
theorem c3_counterexample :
    (getV (_update_module_children 4 exModule (FVal.vint 0) true exGraph2) 1).for_each_index
        = some (FVal.vstr "z") ∧
    some (FVal.vstr "z") ≠ (none : Option FVal) ∧
    (getV (_update_module_children 4 exModule (FVal.vint 0) true exGraph2) 1).source_module_object
        = [TFFrame.mk "main.tf" "m" (some (FVal.vint 0))] := by
  refine ⟨rfl, ?_, rfl⟩
  simp

/-- **C3 (amended).**  The identity-propagation walk (a) rewrites each visited
descendant's `source_module_object` through the chain rewrite carrying the ancestor's
instance key and recurses under the descendant's reconstructed key (built from a copy
of the updated source-module object whose head foreach index is cleared exactly when
the ancestor instance is the override instance); but (b) it never modifies any
descendant's own `for_each_index` (nor its name), at any recursion depth and for
either value of the override flag, and it never changes the membership index.  Part
two exhibits (a) exactly for a one-child membership entry whose child has no
membership entry of its own. -/
theorem c3_amended_walk_rewrites_smo_preserves_for_each_index :
    (∀ fuel k okey cur ov s j,
      (getV (_update_children_foreach_index fuel k okey cur ov s) j).for_each_index
          = (getV s j).for_each_index ∧
      (getV (_update_children_foreach_index fuel k okey cur ov s) j).name
          = (getV s j).name ∧
      (_update_children_foreach_index fuel k okey cur ov s).vertices_by_module_dependency
          = s.vertices_by_module_dependency) ∧
    (∀ fuel k okey cur ov s i bt,
      memFind s.vertices_by_module_dependency cur = some [(bt, [i])] →
      memFind s.vertices_by_module_dependency
        (⟨(walkedChild k okey (getV s i)).path, (walkedChild k okey (getV s i)).name,
          (walkedChild k okey (getV s i)).for_each_index⟩ ::
          (if ov then clearHeadForeach (walkedChild k okey (getV s i)).source_module_object
           else (walkedChild k okey (getV s i)).source_module_object)) = none →
      _update_children_foreach_index (fuel+3) k okey cur ov s
          = setV s i (walkedChild k okey (getV s i))) := by
  constructor
  · intro fuel k okey cur ov s j
    obtain ⟨hdep, _, hskel⟩ := (updChildren_preserves fuel).1 k okey cur ov s
    exact ⟨(hskel j).2.2.2.2.2, (hskel j).1, hdep⟩
  · intro fuel k okey cur ov s i bt h1 h2
    have h3 : _update_children_foreach_index (fuel+3) k okey cur ov s
        = updateChildrenLoop (fuel+2) k okey ov [] [[i]] s := by
      simp only [_update_children_foreach_index]
      rw [h1]
      rfl
    have h4 : updateChildrenLoop (fuel+2) k okey ov [] [[i]] s
        = updateChildrenLoop (fuel+1) k okey ov [i] [] s := rfl
    have h5 : updateChildrenLoop (fuel+1) k okey ov [i] [] s
        = _update_children_foreach_index fuel k okey
            (⟨(walkedChild k okey (getV s i)).path, (walkedChild k okey (getV s i)).name,
              (walkedChild k okey (getV s i)).for_each_index⟩ ::
              (if ov then clearHeadForeach (walkedChild k okey (getV s i)).source_module_object
               else (walkedChild k okey (getV s i)).source_module_object)) true
            (setV s i (walkedChild k okey (getV s i))) := by
      simp only [updateChildrenLoop]
      exact updLoop_nil fuel _ _ _ _
    have h6 : memFind (setV s i (walkedChild k okey (getV s i))).vertices_by_module_dependency
        (⟨(walkedChild k okey (getV s i)).path, (walkedChild k okey (getV s i)).name,
          (walkedChild k okey (getV s i)).for_each_index⟩ ::
          (if ov then clearHeadForeach (walkedChild k okey (getV s i)).source_module_object
           else (walkedChild k okey (getV s i)).source_module_object)) = none := by
      rw [setV_dep]
      exact h2
    rw [h3, h4, h5]
    exact updChildren_of_find_none fuel _ _ _ _ _ h6

/-- A collaborator that statically resolves every statement to the non-integer
string `"oops"`. -/
def cOops : Collaborators :=
  { isStatic := fun _ _ => true
    resolveStmt := fun _ _ => FEStatement.fother (FVal.vstr "oops")
    renderA := fun b => b.attributes
    renderC := fun b => b.config }

/-- `exModule` carrying a truthy raw `count` attribute that resolves to a string. -/
def oopsModule : TerraformBlock :=
  { exModule with attributes := [(COUNT_STRING, FEStatement.fother (FVal.vstr "oops"))] }

def oopsGraph : TerraformLocalGraph :=
  { vertices := [oopsModule]
    vertices_by_module_dependency := [([], [(BlockType.module, [0])])] }

/-- **C6 counterexample.**  No `InvalidStatementKind` exists anywhere in the code, and
the two malformed cases behave differently, each contradicting the claim: a `for_each`
statement that is neither a sequence nor a mapping (here a string, and an integer) is
SILENTLY skipped — the `isinstance` dispatch falls through and the graph is returned
unchanged, with no error of any kind — while a non-integer static `count` raises an
unguarded `TypeError` from `range(statement)` (source line 122), an exception that
identifies the offending value but not the offending block and is not an
`InvalidStatementKind`. -/
theorem c6_counterexample :
    _create_new_resources_foreach 3 (FEStatement.fother (FVal.vstr "oops")) 0 exGraph
        = exGraph ∧
    _create_new_resources_foreach 3 (FEStatement.fint 5) 0 exGraph = exGraph ∧
    _duplicate_module_with_count 3 0 (FEStatement.fother (FVal.vstr "oops")) exGraph
        = Except.error (PyError.typeError (FEStatement.fother (FVal.vstr "oops"))) :=
  ⟨rfl, rfl, rfl⟩

/-- **C6 (amended).**  A malformed `for_each` statement (neither a sequence nor a
mapping) is silently skipped: the graph is returned unchanged and no error value of
any kind is produced — the `isinstance` dispatch falls through.  A static `count`
statement that is neither an integer nor a Python `bool` instead raises `TypeError`
from the unguarded `range(statement)`: the error is propagated uncaught through the
round loop and out of `handle` to the caller (final conjunct, end to end), while a
`bool` count enters the loop as 0 or 1.  In neither case does an
`InvalidStatementKind` error identifying the offending block exist. -/
theorem c6_amended_malformed_statement_silently_skipped :
    (∀ (fuel idx : Nat) (v : FVal) (s : TerraformLocalGraph),
      _create_new_resources_foreach fuel (FEStatement.fother v) idx s = s) ∧
    (∀ (fuel idx : Nat) (n : Int) (s : TerraformLocalGraph),
      _create_new_resources_foreach fuel (FEStatement.fint n) idx s = s) ∧
    (∀ (fuel idx : Nat) (st2 : String) (s : TerraformLocalGraph),
      _duplicate_module_with_count fuel idx (FEStatement.fother (FVal.vstr st2)) s
          = Except.error (PyError.typeError (FEStatement.fother (FVal.vstr st2)))) ∧
    (∀ (fuel idx : Nat) (s : TerraformLocalGraph),
      _duplicate_module_with_count fuel idx (FEStatement.fother FVal.vnone) s
          = Except.error (PyError.typeError (FEStatement.fother FVal.vnone))) ∧
    (∀ (fuel idx : Nat) (xs : List FVal) (s : TerraformLocalGraph),
      _duplicate_module_with_count fuel idx (FEStatement.fseq xs) s
          = Except.error (PyError.typeError (FEStatement.fseq xs))) ∧
    (∀ (fuel idx : Nat) (kvs : List (FVal × FVal)) (s : TerraformLocalGraph),
      _duplicate_module_with_count fuel idx (FEStatement.fmap kvs) s
          = Except.error (PyError.typeError (FEStatement.fmap kvs))) ∧
    (∀ (fuel idx : Nat) (b : Bool) (s : TerraformLocalGraph),
      _duplicate_module_with_count fuel idx (FEStatement.fother (FVal.vbool b)) s
          = Except.ok (_create_new_resources_count fuel (if b then 1 else 0) idx s)) ∧
    handleE cOops 2 [0] oopsGraph
        = Except.error (PyError.typeError (FEStatement.fother (FVal.vstr "oops"))) :=
  ⟨fun _ _ _ _ => rfl, fun _ _ _ _ => rfl, fun _ _ _ _ => rfl, fun _ _ _ => rfl,
   fun _ _ _ _ => rfl, fun _ _ _ _ => rfl, fun _ _ _ _ => rfl, rfl⟩

end ForeachModule

namespace ForeachModule

theorem cloneBlock_fields (main : TerraformBlock) (k : Option FVal) (v : FVal) :
    (cloneBlock main k v).for_each_index = some (pyOr k v) ∧
    (cloneBlock main k v).name = main.name ++ "[" ++ fvalStr (pyOr k v) ++ "]" ∧
    (cloneBlock main k v).source_module_object = main.source_module_object ∧
    (cloneBlock main k v).path = main.path := by
  refine ⟨?_, ?_, ?_, ?_⟩
  · rw [show (cloneBlock main k v).for_each_index
        = ({ main with for_each_index := some (pyOr k v) } : TerraformBlock).for_each_index
        from (upd_resolved_fields _ _ _).1.2.2.2.2.2]
  · rw [show (cloneBlock main k v).name
        = (_update_block_name_and_id { main with for_each_index := some (pyOr k v) }
            (pyOr k v)).name
        from (upd_resolved_fields _ _ _).1.1]
    rfl
  · exact (upd_resolved_fields _ _ _).2
  · rw [show (cloneBlock main k v).path
        = (_update_block_name_and_id { main with for_each_index := some (pyOr k v) }
            (pyOr k v)).path
        from (upd_resolved_fields _ _ _).1.2.1]
    rfl

/-- Exact state produced by a non-zero-position clone of a module with no membership
entry (no descendants): the clone is appended, its index is registered under the
parent key (the vertex's source module object with the head foreach index cleared),
and a fresh empty membership entry is installed under the instance key. -/
theorem create_new_module_pos_empty (fuel : Nat) (main : TerraformBlock) (v : FVal)
    (ri p : Nat) (k : Option FVal) (s : TerraformLocalGraph) (hp : p ≠ 0)
    (hri : ri < s.vertices.length)
    (h : memGetD s.vertices_by_module_dependency (preKeyOf main) = []) :
    _create_new_module (fuel+1) main v ri p k s =
      TerraformLocalGraph.mk (s.vertices ++ [cloneBlock main k v])
        (memSet (memAppendIdx s.vertices_by_module_dependency
            (clearHeadForeach (getV s ri).source_module_object)
            BlockType.module s.vertices.length)
          (instKeyOf main (pyOr k v)) []) := by
  rw [create_new_module_pos_eq _ _ _ _ _ _ _ hp]
  rw [show memGetD
      ({ s with vertices := s.vertices ++ [cloneBlock main k v] } :
        TerraformLocalGraph).vertices_by_module_dependency (preKeyOf main) = [] from h]
  rw [cnm_empty_value]
  have hg : getV { s with vertices := s.vertices ++ [cloneBlock main k v] } ri
      = getV s ri := by
    show (s.vertices ++ [cloneBlock main k v]).getD ri defaultBlock = _
    rw [getD_append_left _ _ _ _ hri]
    rfl
  rw [hg]
  have hl : ({ s with vertices := s.vertices ++ [cloneBlock main k v] } :
      TerraformLocalGraph).vertices.length - 1 = s.vertices.length := by
    simp
  rw [hl]

end ForeachModule

namespace ForeachModule

/-- **C5.**  Expanding a module block `b` with `count = 3` and no children (no
membership entry under its pre-expansion key): afterwards the graph holds exactly 3
module vertices for it — the original index holds instance 0 and the two appended
indices hold instances 1 and 2, with `for_each_index` 0, 1, 2 and the instance-suffixed
names — every other vertex slot is unchanged, and no membership entry is keyed by the
pre-expansion `ModuleInstanceKey` (the key with the foreach index unset). -/
theorem c5_count_three_no_children (fuel : Nat) (s : TerraformLocalGraph) (idx : Nat)
    (b : TerraformBlock) (hb : getV s idx = b) (hlen : idx < s.vertices.length)
    (hnochild : memFind s.vertices_by_module_dependency (preKeyOf b) = none) :
    (_create_new_resources_count (fuel+1) 3 idx s).vertices.length
        = s.vertices.length + 2 ∧
    (getV (_create_new_resources_count (fuel+1) 3 idx s) idx).for_each_index
        = some (FVal.vint 0) ∧
    (getV (_create_new_resources_count (fuel+1) 3 idx s) idx).name
        = b.name ++ "[" ++ fvalStr (FVal.vint 0) ++ "]" ∧
    (getV (_create_new_resources_count (fuel+1) 3 idx s) s.vertices.length).for_each_index
        = some (FVal.vint 1) ∧
    (getV (_create_new_resources_count (fuel+1) 3 idx s) s.vertices.length).name
        = b.name ++ "[" ++ fvalStr (FVal.vint 1) ++ "]" ∧
    (getV (_create_new_resources_count (fuel+1) 3 idx s) (s.vertices.length + 1)).for_each_index
        = some (FVal.vint 2) ∧
    (getV (_create_new_resources_count (fuel+1) 3 idx s) (s.vertices.length + 1)).name
        = b.name ++ "[" ++ fvalStr (FVal.vint 2) ++ "]" ∧
    (∀ j, j < s.vertices.length → j ≠ idx →
        getV (_create_new_resources_count (fuel+1) 3 idx s) j = getV s j) ∧
    memFind (_create_new_resources_count (fuel+1) 3 idx s).vertices_by_module_dependency
        (preKeyOf b) = none := by
  have hv1 : idx < (s.vertices.set idx (cloneBlock b none (FVal.vint 0))).length := by
    simpa using hlen
  have hd1 : memFind
      (memSet s.vertices_by_module_dependency (instKeyOf b (FVal.vint 0)) []) (preKeyOf b)
      = none := by
    rw [memFind_memSet_ne _ _ _ _ (Ne.symm (instKey_ne_preKey b _))]
    exact hnochild
  have hd2 : memFind
      (memSet (memAppendIdx
          (memSet s.vertices_by_module_dependency (instKeyOf b (FVal.vint 0)) [])
          (clearHeadForeach b.source_module_object) BlockType.module s.vertices.length)
        (instKeyOf b (FVal.vint 1)) []) (preKeyOf b) = none := by
    rw [memFind_memSet_ne _ _ _ _ (Ne.symm (instKey_ne_preKey b _)),
      memFind_memAppendIdx_ne _ _ _ _ _ (Ne.symm (clearHead_ne_preKey b))]
    exact hd1
  have hd3 : memFind
      (memSet (memAppendIdx
          (memSet (memAppendIdx
              (memSet s.vertices_by_module_dependency (instKeyOf b (FVal.vint 0)) [])
              (clearHeadForeach b.source_module_object) BlockType.module s.vertices.length)
            (instKeyOf b (FVal.vint 1)) [])
          (clearHeadForeach b.source_module_object) BlockType.module (s.vertices.length + 1))
        (instKeyOf b (FVal.vint 2)) []) (preKeyOf b) = none := by
    rw [memFind_memSet_ne _ _ _ _ (Ne.symm (instKey_ne_preKey b _)),
      memFind_memAppendIdx_ne _ _ _ _ _ (Ne.symm (clearHead_ne_preKey b))]
    exact hd2
  have e0 : _create_new_resources_count (fuel+1) 3 idx s
      = _update_module_children (fuel+1) (getV s idx) (FVal.vint 2) false
          (_update_module_children (fuel+1) (getV s idx) (FVal.vint 1) false
            (_update_module_children (fuel+1) (getV s idx) (FVal.vint 0) true
              (_create_new_module (fuel+1) (getV s idx) (FVal.vint 2) idx 2 none
                (_create_new_module (fuel+1) (getV s idx) (FVal.vint 1) idx 1 none
                  (_create_new_module (fuel+1) (getV s idx) (FVal.vint 0) idx 0 none s))))) :=
    rfl
  rw [hb] at e0
  have hget0 : memGetD s.vertices_by_module_dependency (preKeyOf b) = [] := by
    simp [memGetD, hnochild]
  have h1 : _create_new_module (fuel+1) b (FVal.vint 0) idx 0 none s
      = TerraformLocalGraph.mk (s.vertices.set idx (cloneBlock b none (FVal.vint 0)))
          (memSet s.vertices_by_module_dependency (instKeyOf b (FVal.vint 0)) []) := by
    rw [create_new_module_zero_eq, hget0]
    rfl
  rw [h1] at e0
  have hgv1 : getV (TerraformLocalGraph.mk
      (s.vertices.set idx (cloneBlock b none (FVal.vint 0)))
      (memSet s.vertices_by_module_dependency (instKeyOf b (FVal.vint 0)) [])) idx
      = cloneBlock b none (FVal.vint 0) := by
    show (s.vertices.set idx (cloneBlock b none (FVal.vint 0))).getD idx defaultBlock = _
    exact getD_set_self _ _ _ _ hlen
  have hemp1 : memGetD
      (memSet s.vertices_by_module_dependency (instKeyOf b (FVal.vint 0)) [])
      (preKeyOf b) = [] := by
    simp [memGetD, hd1]
  have h2 : _create_new_module (fuel+1) b (FVal.vint 1) idx 1 none
      (TerraformLocalGraph.mk (s.vertices.set idx (cloneBlock b none (FVal.vint 0)))
        (memSet s.vertices_by_module_dependency (instKeyOf b (FVal.vint 0)) []))
      = TerraformLocalGraph.mk
          (s.vertices.set idx (cloneBlock b none (FVal.vint 0))
            ++ [cloneBlock b none (FVal.vint 1)])
          (memSet (memAppendIdx
              (memSet s.vertices_by_module_dependency (instKeyOf b (FVal.vint 0)) [])
              (clearHeadForeach b.source_module_object) BlockType.module s.vertices.length)
            (instKeyOf b (FVal.vint 1)) []) := by
    rw [create_new_module_pos_empty fuel b (FVal.vint 1) idx 1 none _ (by omega)
      (by simpa using hlen) hemp1]
    rw [hgv1, (cloneBlock_fields b none (FVal.vint 0)).2.2.1]
    rw [show (TerraformLocalGraph.mk
        (s.vertices.set idx (cloneBlock b none (FVal.vint 0)))
        (memSet s.vertices_by_module_dependency (instKeyOf b (FVal.vint 0)) [])).vertices.length
        = s.vertices.length from by simp]
    rfl
  rw [h2] at e0
  have hgv2 : getV (TerraformLocalGraph.mk
      (s.vertices.set idx (cloneBlock b none (FVal.vint 0))
        ++ [cloneBlock b none (FVal.vint 1)])
      (memSet (memAppendIdx
          (memSet s.vertices_by_module_dependency (instKeyOf b (FVal.vint 0)) [])
          (clearHeadForeach b.source_module_object) BlockType.module s.vertices.length)
        (instKeyOf b (FVal.vint 1)) [])) idx
      = cloneBlock b none (FVal.vint 0) := by
    show (s.vertices.set idx (cloneBlock b none (FVal.vint 0))
      ++ [cloneBlock b none (FVal.vint 1)]).getD idx defaultBlock = _
    rw [getD_append_left _ _ _ _ hv1]
    exact getD_set_self _ _ _ _ hlen
  have hemp2 : memGetD
      (memSet (memAppendIdx
          (memSet s.vertices_by_module_dependency (instKeyOf b (FVal.vint 0)) [])
          (clearHeadForeach b.source_module_object) BlockType.module s.vertices.length)
        (instKeyOf b (FVal.vint 1)) [])
      (preKeyOf b) = [] := by
    simp [memGetD, hd2]
  have h3 : _create_new_module (fuel+1) b (FVal.vint 2) idx 2 none
      (TerraformLocalGraph.mk
        (s.vertices.set idx (cloneBlock b none (FVal.vint 0))
          ++ [cloneBlock b none (FVal.vint 1)])
        (memSet (memAppendIdx
            (memSet s.vertices_by_module_dependency (instKeyOf b (FVal.vint 0)) [])
            (clearHeadForeach b.source_module_object) BlockType.module s.vertices.length)
          (instKeyOf b (FVal.vint 1)) []))
      = TerraformLocalGraph.mk
          ((s.vertices.set idx (cloneBlock b none (FVal.vint 0))
            ++ [cloneBlock b none (FVal.vint 1)]) ++ [cloneBlock b none (FVal.vint 2)])
          (memSet (memAppendIdx
              (memSet (memAppendIdx
                  (memSet s.vertices_by_module_dependency (instKeyOf b (FVal.vint 0)) [])
                  (clearHeadForeach b.source_module_object) BlockType.module s.vertices.length)
                (instKeyOf b (FVal.vint 1)) [])
              (clearHeadForeach b.source_module_object) BlockType.module
              (s.vertices.length + 1))
            (instKeyOf b (FVal.vint 2)) []) := by
    rw [create_new_module_pos_empty fuel b (FVal.vint 2) idx 2 none _ (by omega)
      (by simp; omega) hemp2]
    rw [hgv2, (cloneBlock_fields b none (FVal.vint 0)).2.2.1]
    rw [show (TerraformLocalGraph.mk
        (s.vertices.set idx (cloneBlock b none (FVal.vint 0))
          ++ [cloneBlock b none (FVal.vint 1)])
        (memSet (memAppendIdx
            (memSet s.vertices_by_module_dependency (instKeyOf b (FVal.vint 0)) [])
            (clearHeadForeach b.source_module_object) BlockType.module s.vertices.length)
          (instKeyOf b (FVal.vint 1)) [])).vertices.length
        = s.vertices.length + 1 from by simp]
    rfl
  rw [h3] at e0
  have hu0 : _update_module_children (fuel+1) b (FVal.vint 0) true
      (TerraformLocalGraph.mk
        ((s.vertices.set idx (cloneBlock b none (FVal.vint 0))
          ++ [cloneBlock b none (FVal.vint 1)]) ++ [cloneBlock b none (FVal.vint 2)])
        (memSet (memAppendIdx
            (memSet (memAppendIdx
                (memSet s.vertices_by_module_dependency (instKeyOf b (FVal.vint 0)) [])
                (clearHeadForeach b.source_module_object) BlockType.module s.vertices.length)
              (instKeyOf b (FVal.vint 1)) [])
            (clearHeadForeach b.source_module_object) BlockType.module
            (s.vertices.length + 1))
          (instKeyOf b (FVal.vint 2)) []))
      = TerraformLocalGraph.mk
        ((s.vertices.set idx (cloneBlock b none (FVal.vint 0))
          ++ [cloneBlock b none (FVal.vint 1)]) ++ [cloneBlock b none (FVal.vint 2)])
        (memSet (memAppendIdx
            (memSet (memAppendIdx
                (memSet s.vertices_by_module_dependency (instKeyOf b (FVal.vint 0)) [])
                (clearHeadForeach b.source_module_object) BlockType.module s.vertices.length)
              (instKeyOf b (FVal.vint 1)) [])
            (clearHeadForeach b.source_module_object) BlockType.module
            (s.vertices.length + 1))
          (instKeyOf b (FVal.vint 2)) []) :=
    updModuleChildren_override_none _ _ _ _ hd3
  rw [hu0] at e0
  have hk1 : memFind
      (memSet (memAppendIdx
          (memSet (memAppendIdx
              (memSet s.vertices_by_module_dependency (instKeyOf b (FVal.vint 0)) [])
              (clearHeadForeach b.source_module_object) BlockType.module s.vertices.length)
            (instKeyOf b (FVal.vint 1)) [])
          (clearHeadForeach b.source_module_object) BlockType.module (s.vertices.length + 1))
        (instKeyOf b (FVal.vint 2)) []) (instKeyOf b (FVal.vint 1)) = some [] := by
    rw [memFind_memSet_ne _ _ _ _ (instKey_ne_instKey b _ _ (by simp)),
      memFind_memAppendIdx_ne _ _ _ _ _ (Ne.symm (clearHead_ne_instKey b _))]
    exact memFind_memSet_self _ _ _
  have hu1 := updModuleChildren_nonoverride_empty (fuel+1) b (FVal.vint 1)
    (TerraformLocalGraph.mk
      ((s.vertices.set idx (cloneBlock b none (FVal.vint 0))
        ++ [cloneBlock b none (FVal.vint 1)]) ++ [cloneBlock b none (FVal.vint 2)])
      (memSet (memAppendIdx
          (memSet (memAppendIdx
              (memSet s.vertices_by_module_dependency (instKeyOf b (FVal.vint 0)) [])
              (clearHeadForeach b.source_module_object) BlockType.module s.vertices.length)
            (instKeyOf b (FVal.vint 1)) [])
          (clearHeadForeach b.source_module_object) BlockType.module
          (s.vertices.length + 1))
        (instKeyOf b (FVal.vint 2)) [])) hk1
  rw [hu1] at e0
  have hk2 : memFind
      (memSet (memAppendIdx
          (memSet (memAppendIdx
              (memSet s.vertices_by_module_dependency (instKeyOf b (FVal.vint 0)) [])
              (clearHeadForeach b.source_module_object) BlockType.module s.vertices.length)
            (instKeyOf b (FVal.vint 1)) [])
          (clearHeadForeach b.source_module_object) BlockType.module (s.vertices.length + 1))
        (instKeyOf b (FVal.vint 2)) []) (instKeyOf b (FVal.vint 2)) = some [] :=
    memFind_memSet_self _ _ _
  have hu2 := updModuleChildren_nonoverride_empty (fuel+1) b (FVal.vint 2)
    (TerraformLocalGraph.mk
      ((s.vertices.set idx (cloneBlock b none (FVal.vint 0))
        ++ [cloneBlock b none (FVal.vint 1)]) ++ [cloneBlock b none (FVal.vint 2)])
      (memSet (memAppendIdx
          (memSet (memAppendIdx
              (memSet s.vertices_by_module_dependency (instKeyOf b (FVal.vint 0)) [])
              (clearHeadForeach b.source_module_object) BlockType.module s.vertices.length)
            (instKeyOf b (FVal.vint 1)) [])
          (clearHeadForeach b.source_module_object) BlockType.module
          (s.vertices.length + 1))
        (instKeyOf b (FVal.vint 2)) [])) hk2
  rw [hu2] at e0
  rw [e0]
  have hv1len : (s.vertices.set idx (cloneBlock b none (FVal.vint 0))).length
      = s.vertices.length := by simp
  have hv2len : (s.vertices.set idx (cloneBlock b none (FVal.vint 0))
      ++ [cloneBlock b none (FVal.vint 1)]).length = s.vertices.length + 1 := by simp
  refine ⟨by simp, ?_, ?_, ?_, ?_, ?_, ?_, ?_, hd3⟩
  · show (((s.vertices.set idx (cloneBlock b none (FVal.vint 0))
      ++ [cloneBlock b none (FVal.vint 1)]) ++ [cloneBlock b none (FVal.vint 2)]).getD idx
        defaultBlock).for_each_index = _
    rw [getD_append_left _ _ _ _ (by simp; omega),
      getD_append_left _ _ _ _ hv1, getD_set_self _ _ _ _ hlen]
    exact (cloneBlock_fields b none (FVal.vint 0)).1
  · show (((s.vertices.set idx (cloneBlock b none (FVal.vint 0))
      ++ [cloneBlock b none (FVal.vint 1)]) ++ [cloneBlock b none (FVal.vint 2)]).getD idx
        defaultBlock).name = _
    rw [getD_append_left _ _ _ _ (by simp; omega),
      getD_append_left _ _ _ _ hv1, getD_set_self _ _ _ _ hlen]
    exact (cloneBlock_fields b none (FVal.vint 0)).2.1
  · show (((s.vertices.set idx (cloneBlock b none (FVal.vint 0))
      ++ [cloneBlock b none (FVal.vint 1)]) ++ [cloneBlock b none (FVal.vint 2)]).getD
        s.vertices.length defaultBlock).for_each_index = _
    rw [getD_append_left _ _ _ _ (by simp),
      show s.vertices.length
        = (s.vertices.set idx (cloneBlock b none (FVal.vint 0))).length from hv1len.symm,
      getD_append_at]
    exact (cloneBlock_fields b none (FVal.vint 1)).1
  · show (((s.vertices.set idx (cloneBlock b none (FVal.vint 0))
      ++ [cloneBlock b none (FVal.vint 1)]) ++ [cloneBlock b none (FVal.vint 2)]).getD
        s.vertices.length defaultBlock).name = _
    rw [getD_append_left _ _ _ _ (by simp),
      show s.vertices.length
        = (s.vertices.set idx (cloneBlock b none (FVal.vint 0))).length from hv1len.symm,
      getD_append_at]
    exact (cloneBlock_fields b none (FVal.vint 1)).2.1
  · show (((s.vertices.set idx (cloneBlock b none (FVal.vint 0))
      ++ [cloneBlock b none (FVal.vint 1)]) ++ [cloneBlock b none (FVal.vint 2)]).getD
        (s.vertices.length + 1) defaultBlock).for_each_index = _
    rw [show s.vertices.length + 1
        = (s.vertices.set idx (cloneBlock b none (FVal.vint 0))
          ++ [cloneBlock b none (FVal.vint 1)]).length from hv2len.symm,
      getD_append_at]
    exact (cloneBlock_fields b none (FVal.vint 2)).1
  · show (((s.vertices.set idx (cloneBlock b none (FVal.vint 0))
      ++ [cloneBlock b none (FVal.vint 1)]) ++ [cloneBlock b none (FVal.vint 2)]).getD
        (s.vertices.length + 1) defaultBlock).name = _
    rw [show s.vertices.length + 1
        = (s.vertices.set idx (cloneBlock b none (FVal.vint 0))
          ++ [cloneBlock b none (FVal.vint 1)]).length from hv2len.symm,
      getD_append_at]
    exact (cloneBlock_fields b none (FVal.vint 2)).2.1
  · intro j hj hji
    show ((s.vertices.set idx (cloneBlock b none (FVal.vint 0))
      ++ [cloneBlock b none (FVal.vint 1)]) ++ [cloneBlock b none (FVal.vint 2)]).getD j
        defaultBlock = getV s j
    rw [getD_append_left _ _ _ _ (by simp; omega),
      getD_append_left _ _ _ _ (by simp; omega),
      getD_set_ne _ _ _ _ _ (fun h => hji h.symm)]
    rfl

end ForeachModule

namespace ForeachModule

theorem renderVerts_id (c : Collaborators) (mb : List Nat)
    (hA : ∀ b, c.renderA b = b.attributes) (hC : ∀ b, c.renderC b = b.config) :
    ∀ (i : Nat) (l : List TerraformBlock), renderVerts c mb i l = l := by
  intro i l
  induction l generalizing i with
  | nil => rfl
  | cons b rest ih =>
    simp only [renderVerts, hA, hC, ih]
    split <;> rfl

theorem render_sub_graph_id (c : Collaborators) (mb : List Nat) (s : TerraformLocalGraph)
    (hA : ∀ b, c.renderA b = b.attributes) (hC : ∀ b, c.renderC b = b.config) :
    _render_sub_graph c mb s = s := by
  show { s with vertices := renderVerts c mb 0 s.vertices } = s
  rw [renderVerts_id c mb hA hC]

/-- A block whose raw `for_each` and `count` attributes are both falsy is skipped by
the per-module gate of the round (source lines 56-67). -/
theorem processModule_skip (c : Collaborators) (fuel : Nat) (s : TerraformLocalGraph)
    (i : Nat)
    (hfe : optTruthy (lookupStr (getV s i).attributes FOREACH_STRING) = false)
    (hct : optTruthy (lookupStr (getV s i).attributes COUNT_STRING) = false) :
    processModule c fuel s i = s := by
  simp [processModule, processModuleE, hfe, hct]

/-- On the non-raising path the total projection and the exception-aware per-module
step agree. -/
theorem processModule_of_ok (c : Collaborators) (fuel : Nat) (s : TerraformLocalGraph)
    (i : Nat) (t : TerraformLocalGraph) (h : processModuleE c fuel s i = Except.ok t) :
    processModule c fuel s i = t := by
  simp [processModule, h]

/-- **C9.**  Calling `handle` on a graph in which no module carries an unresolved (or
any) `for_each`/`count` statement — every block's raw `for_each` and `count`
attributes are falsy — with a renderer that has nothing left to resolve, is a no-op:
the vertex store and the membership index are returned exactly unchanged, for every
fuel, every candidate list and every level structure the loop walks through. -/
theorem c9_handle_noop_when_nothing_unresolved (c : Collaborators) (fuel : Nat)
    (mb : List Nat) (s : TerraformLocalGraph)
    (hA : ∀ b, c.renderA b = b.attributes) (hC : ∀ b, c.renderC b = b.config)
    (hstmt : ∀ i, optTruthy (lookupStr (getV s i).attributes FOREACH_STRING) = false
        ∧ optTruthy (lookupStr (getV s i).attributes COUNT_STRING) = false) :
    handle c fuel mb s = s := by
  have hfold : ∀ (f : Nat) (todo : List Nat),
      todo.foldl (fun st i => processModule c f st i) s = s := by
    intro f todo
    induction todo with
    | nil => rfl
    | cons t ts ih =>
      show ts.foldl _ (processModule c f s t) = s
      rw [processModule_skip c f s t (hstmt t).1 (hstmt t).2]
      exact ih
  have hround : ∀ (f : Nat) (todo : List Nat) (lvl : List TFChain),
      (_render_foreach_modules_by_levels c f mb todo lvl s).1 = s := by
    intro f todo lvl
    show todo.foldl (fun st i => processModule c f st i) (_render_sub_graph c mb s) = s
    rw [render_sub_graph_id c mb s hA hC]
    exact hfold f todo
  have hloop : ∀ (f : Nat) (todo : List Nat) (lvl : List TFChain),
      handleLoop c f mb todo lvl s = s := by
    intro f
    induction f with
    | zero => intro todo lvl; rfl
    | succ n ih =>
      intro todo lvl
      cases todo with
      | nil => rfl
      | cons t ts =>
        show handleLoop c n mb
          (_render_foreach_modules_by_levels c n mb (t :: ts) lvl s).2.2
          (_render_foreach_modules_by_levels c n mb (t :: ts) lvl s).2.1
          (_render_foreach_modules_by_levels c n mb (t :: ts) lvl s).1 = s
        rw [hround n (t :: ts) lvl]
        exact ih _ _
  cases mb with
  | nil => rfl
  | cons m ms => exact hloop fuel _ _

end ForeachModule

namespace ForeachModule

theorem create_new_module_pos_getV (fuel : Nat) (main : TerraformBlock) (v : FVal)
    (ri p : Nat) (k : Option FVal) (s : TerraformLocalGraph) (j : Nat) (hp : p ≠ 0)
    (hj : j < s.vertices.length) :
    getV (_create_new_module fuel main v ri p k s) j = getV s j := by
  simp only [_create_new_module]
  rw [if_pos hp]
  rw [cnm_getV_preserved _ _ _ _ _ _ _ (by simp; omega)]
  show (s.vertices ++ [_]).getD j defaultBlock = _
  rw [getD_append_left _ _ _ _ hj]
  rfl

theorem create_new_module_pos_length (fuel : Nat) (main : TerraformBlock) (v : FVal)
    (ri p : Nat) (k : Option FVal) (s : TerraformLocalGraph) (hp : p ≠ 0) :
    s.vertices.length + 1 ≤ (_create_new_module fuel main v ri p k s).vertices.length := by
  simp only [_create_new_module]
  rw [if_pos hp]
  refine le_trans ?_ (cnm_length_le fuel _ _ _ _ _)
  simp

/-- Folding clone-creation steps that each only append preserves existing slots and
grows the vertex list at least one per step. -/
theorem create_steps_preserve {α : Type} (step : TerraformLocalGraph → α → TerraformLocalGraph) :
    ∀ (l : List α),
      (∀ st a, a ∈ l →
        (∀ j, j < st.vertices.length → getV (step st a) j = getV st j) ∧
        st.vertices.length + 1 ≤ (step st a).vertices.length) →
      ∀ s, (∀ j, j < s.vertices.length → getV (l.foldl step s) j = getV s j) ∧
        s.vertices.length + l.length ≤ (l.foldl step s).vertices.length := by
  intro l
  induction l with
  | nil =>
    intro _ s
    exact ⟨fun j _ => rfl, by simp⟩
  | cons a as ih =>
    intro hstep s
    have h1 := hstep s a (List.mem_cons_self a as)
    have ih' := ih (fun st b hb => hstep st b (List.mem_cons_of_mem a hb)) (step s a)
    constructor
    · intro j hj
      have hj' : j < (step s a).vertices.length := by
        have := h1.2
        omega
      show getV (as.foldl step (step s a)) j = getV s j
      rw [ih'.1 j hj']
      exact h1.1 j hj
    · have h2 := ih'.2
      have h3 := h1.2
      show s.vertices.length + (a :: as).length ≤ (as.foldl step (step s a)).vertices.length
      simp only [List.length_cons]
      omega

/-- Folding identity-propagation steps preserves the vertex count and every vertex's
skeleton fields. -/
theorem update_steps_preserve {α : Type} (step : TerraformLocalGraph → α → TerraformLocalGraph) :
    ∀ (l : List α),
      (∀ st a, a ∈ l →
        (step st a).vertices.length = st.vertices.length ∧
        (∀ j, sameSkel (getV (step st a) j) (getV st j))) →
      ∀ s, (l.foldl step s).vertices.length = s.vertices.length ∧
        (∀ j, sameSkel (getV (l.foldl step s) j) (getV s j)) := by
  intro l
  induction l with
  | nil =>
    intro _ s
    exact ⟨rfl, fun j => sameSkel_refl _⟩
  | cons a as ih =>
    intro hstep s
    have h1 := hstep s a (List.mem_cons_self a as)
    have ih' := ih (fun st b hb => hstep st b (List.mem_cons_of_mem a hb)) (step s a)
    constructor
    · show (as.foldl step (step s a)).vertices.length = s.vertices.length
      rw [ih'.1, h1.1]
    · intro j
      exact sameSkel_trans (ih'.2 j) (h1.2 j)

theorem enumFrom_fst_le {α : Type} :
    ∀ (l : List α) (n : Nat) (p : Nat × α), p ∈ List.enumFrom n l → n ≤ p.1 := by
  intro l
  induction l with
  | nil => intro n p h; simp [List.enumFrom] at h
  | cons x xs ih =>
    intro n p h
    rcases List.mem_cons.mp h with h1 | h2
    · subst h1; exact le_refl n
    · exact le_trans (Nat.le_succ n) (ih (n+1) p h2)

/-- The block fields untouched when only the renderer runs (everything except
attributes and config). -/
def sameCore (a b : TerraformBlock) : Prop :=
  a.name = b.name ∧ a.path = b.path ∧ a.block_type = b.block_type ∧
  a.source_module_object = b.source_module_object ∧ a.source_module = b.source_module ∧
  a.for_each_index = b.for_each_index

theorem sameCore_refl (a : TerraformBlock) : sameCore a a := ⟨rfl, rfl, rfl, rfl, rfl, rfl⟩

theorem sameCore_trans {a b c : TerraformBlock} (h1 : sameCore a b) (h2 : sameCore b c) :
    sameCore a c := by
  obtain ⟨e1, e2, e3, e4, e5, e6⟩ := h1
  obtain ⟨f1, f2, f3, f4, f5, f6⟩ := h2
  exact ⟨e1.trans f1, e2.trans f2, e3.trans f3, e4.trans f4, e5.trans f5, e6.trans f6⟩

theorem renderVerts_core (c : Collaborators) (mb : List Nat) :
    ∀ (l : List TerraformBlock) (i : Nat),
      (renderVerts c mb i l).length = l.length ∧
      (∀ j d, sameCore ((renderVerts c mb i l).getD j d) (l.getD j d)) := by
  intro l
  induction l with
  | nil => intro i; exact ⟨rfl, fun j d => sameCore_refl _⟩
  | cons b rest ih =>
    intro i
    constructor
    · show ((if mb.contains i then _ else b) :: renderVerts c mb (i+1) rest).length = _
      simp [(ih (i+1)).1]
    · intro j d
      cases j with
      | zero =>
        show sameCore (if mb.contains i then _ else b) b
        split
        · exact ⟨rfl, rfl, rfl, rfl, rfl, rfl⟩
        · exact sameCore_refl b
      | succ j' =>
        show sameCore ((renderVerts c mb (i+1) rest).getD j' d) (rest.getD j' d)
        exact (ih (i+1)).2 j' d

theorem render_core (c : Collaborators) (mb : List Nat) (s : TerraformLocalGraph) :
    (_render_sub_graph c mb s).vertices_by_module_dependency
        = s.vertices_by_module_dependency ∧
    (_render_sub_graph c mb s).vertices.length = s.vertices.length ∧
    (∀ j, sameCore (getV (_render_sub_graph c mb s) j) (getV s j)) :=
  ⟨rfl, (renderVerts_core c mb s.vertices 0).1,
    fun j => (renderVerts_core c mb s.vertices 0).2 j defaultBlock⟩

/-- A module the oracle never reports static is skipped by the round body. -/
theorem processModule_not_static (c : Collaborators) (fuel : Nat) (s : TerraformLocalGraph)
    (i : Nat) (h : c.isStatic s i = false) : processModule c fuel s i = s := by
  simp [processModule, processModuleE, h]

end ForeachModule

namespace ForeachModule

theorem enumFrom_length {α : Type} :
    ∀ (l : List α) (n : Nat), (List.enumFrom n l).length = l.length := by
  intro l
  induction l with
  | nil => intro n; rfl
  | cons x xs ih =>
    intro n
    show (List.enumFrom (n+1) xs).length + 1 = xs.length + 1
    rw [ih (n+1)]

/-- An oracle that reports every statement static and resolves everything to the
integer 0, over a renderer with nothing to rewrite. -/
def cZero : Collaborators :=
  { isStatic := fun _ _ => true
    resolveStmt := fun _ _ => FEStatement.fint 0
    renderA := fun b => b.attributes
    renderC := fun b => b.config }

def zeroCountModule : TerraformBlock :=
  { exModule with attributes := [(COUNT_STRING, FEStatement.fint 0)] }

def zeroCountGraph : TerraformLocalGraph :=
  { vertices := [zeroCountModule]
    vertices_by_module_dependency := [([], [(BlockType.module, [0])])] }

/-- **C4 counterexample.**  A candidate module whose `count` statement is statically
resolvable (the oracle reports it static and resolves it to the integer 0) is NOT
replaced by its N = 0 instances: `handle` returns the graph completely unchanged,
because the truthiness gate `elif count:` (source line 63) skips a statement whose
raw value is falsy — so "every candidate module whose statement became statically
resolvable has been replaced by its N independent instances" fails at N = 0. -/
theorem c4_counterexample :
    cZero.isStatic zeroCountGraph 0 = true ∧
    cZero.resolveStmt zeroCountGraph 0 = FEStatement.fint 0 ∧
    lookupStr (getV zeroCountGraph 0).attributes COUNT_STRING
        = some (FEStatement.fint 0) ∧
    handle cZero 3 [0] zeroCountGraph = zeroCountGraph :=
  ⟨rfl, rfl, rfl, rfl⟩

/-- **C4 (amended).**  (i) Every module whose statement never resolves (the oracle
never reports it static) is left un-multiplied by `handle`: the membership index, the
vertex count, and every vertex's name, path, block type, source module object, back
references and `for_each_index` are unchanged — only the renderer's attribute/config
rewrites happen, and no error escapes (the loop is a total function).  (ii)-(iv) In
any round, a scheduled module whose gate passes and whose statement resolves to
`count = n ≥ 1`, or to a non-empty `for_each` sequence or mapping, IS expanded in
that round: its slot is overwritten in place by instance 0 (carrying the instance
`for_each_index`, and for `count` the suffixed name) and at least one vertex is
appended per remaining instance.  A statement resolving to 0 or to an empty
collection is skipped by the truthiness gate — the restriction the counterexample
forces. -/
theorem c4_amended_resolvable_expanded_unresolved_untouched (c : Collaborators)
    (fuel : Nat) :
    ((∀ s' i, c.isStatic s' i = false) → ∀ (mb : List Nat) (s : TerraformLocalGraph),
      (handle c fuel mb s).vertices_by_module_dependency
          = s.vertices_by_module_dependency ∧
      (handle c fuel mb s).vertices.length = s.vertices.length ∧
      (∀ j, sameCore (getV (handle c fuel mb s) j) (getV s j))) ∧
    (∀ (s : TerraformLocalGraph) (mi : Nat) (n : Int),
      optTruthy (lookupStr (getV s mi).attributes FOREACH_STRING) = false →
      optTruthy (lookupStr (getV s mi).attributes COUNT_STRING) = true →
      c.isStatic s mi = true →
      c.resolveStmt s mi = FEStatement.fint n →
      1 ≤ n →
      mi < s.vertices.length →
      (getV (processModule c (fuel+1) s mi) mi).for_each_index = some (FVal.vint 0) ∧
      (getV (processModule c (fuel+1) s mi) mi).name
          = (getV s mi).name ++ "[" ++ fvalStr (FVal.vint 0) ++ "]" ∧
      s.vertices.length + (n.toNat - 1) ≤ (processModule c (fuel+1) s mi).vertices.length) ∧
    (∀ (s : TerraformLocalGraph) (mi : Nat) (x : FVal) (xs : List FVal),
      optTruthy (lookupStr (getV s mi).attributes FOREACH_STRING) = true →
      c.isStatic s mi = true →
      c.resolveStmt s mi = FEStatement.fseq (x :: xs) →
      mi < s.vertices.length →
      (getV (processModule c (fuel+1) s mi) mi).for_each_index = some x ∧
      s.vertices.length + xs.length ≤ (processModule c (fuel+1) s mi).vertices.length) ∧
    (∀ (s : TerraformLocalGraph) (mi : Nat) (kv : FVal × FVal) (kvs : List (FVal × FVal)),
      optTruthy (lookupStr (getV s mi).attributes FOREACH_STRING) = true →
      c.isStatic s mi = true →
      c.resolveStmt s mi = FEStatement.fmap (kv :: kvs) →
      mi < s.vertices.length →
      (getV (processModule c (fuel+1) s mi) mi).for_each_index
          = some (pyOr (some kv.1) kv.2) ∧
      s.vertices.length + kvs.length ≤ (processModule c (fuel+1) s mi).vertices.length) := by
  refine ⟨?_, ?_, ?_, ?_⟩
  · intro hns mb s
    have hfoldn : ∀ (f : Nat) (todo : List Nat) (s' : TerraformLocalGraph),
        todo.foldl (fun st i => processModule c f st i) s' = s' := by
      intro f todo
      induction todo with
      | nil => intro s'; rfl
      | cons t ts ih =>
        intro s'
        show ts.foldl _ (processModule c f s' t) = s'
        rw [processModule_not_static c f s' t (hns s' t)]
        exact ih s'
    have hround : ∀ (f : Nat) (todo : List Nat) (lvl : List TFChain)
        (s' : TerraformLocalGraph),
        (_render_foreach_modules_by_levels c f mb todo lvl s').1
          = _render_sub_graph c mb s' := by
      intro f todo lvl s'
      show todo.foldl (fun st i => processModule c f st i) (_render_sub_graph c mb s') = _
      exact hfoldn f todo _
    have hloop : ∀ (f : Nat) (todo : List Nat) (lvl : List TFChain)
        (s' : TerraformLocalGraph),
        (handleLoop c f mb todo lvl s').vertices_by_module_dependency
            = s'.vertices_by_module_dependency ∧
        (handleLoop c f mb todo lvl s').vertices.length = s'.vertices.length ∧
        (∀ j, sameCore (getV (handleLoop c f mb todo lvl s') j) (getV s' j)) := by
      intro f
      induction f with
      | zero => intro todo lvl s'; exact ⟨rfl, rfl, fun j => sameCore_refl _⟩
      | succ nf ihf =>
        intro todo lvl s'
        cases todo with
        | nil => exact ⟨rfl, rfl, fun j => sameCore_refl _⟩
        | cons t ts =>
          refine ⟨?_, ?_, ?_⟩
          · show (handleLoop c nf mb
              (_render_foreach_modules_by_levels c nf mb (t :: ts) lvl s').2.2
              (_render_foreach_modules_by_levels c nf mb (t :: ts) lvl s').2.1
              (_render_foreach_modules_by_levels c nf mb (t :: ts) lvl s').1).vertices_by_module_dependency
                = s'.vertices_by_module_dependency
            rw [hround nf (t :: ts) lvl s', (ihf _ _ _).1, (render_core c mb s').1]
          · show (handleLoop c nf mb
              (_render_foreach_modules_by_levels c nf mb (t :: ts) lvl s').2.2
              (_render_foreach_modules_by_levels c nf mb (t :: ts) lvl s').2.1
              (_render_foreach_modules_by_levels c nf mb (t :: ts) lvl s').1).vertices.length
                = s'.vertices.length
            rw [hround nf (t :: ts) lvl s', (ihf _ _ _).2.1, (render_core c mb s').2.1]
          · intro j
            show sameCore (getV (handleLoop c nf mb
              (_render_foreach_modules_by_levels c nf mb (t :: ts) lvl s').2.2
              (_render_foreach_modules_by_levels c nf mb (t :: ts) lvl s').2.1
              (_render_foreach_modules_by_levels c nf mb (t :: ts) lvl s').1) j) (getV s' j)
            rw [hround nf (t :: ts) lvl s']
            exact sameCore_trans ((ihf _ _ _).2.2 j) ((render_core c mb s').2.2 j)
    cases mb with
    | nil => exact ⟨rfl, rfl, fun j => sameCore_refl _⟩
    | cons m ms => exact hloop fuel _ _ s
  · intro s mi n hfe hct hstat hres hn hlen
    have hpm : processModule c (fuel+1) s mi
        = _create_new_resources_count (fuel+1) n mi s := by
      simp [processModule, processModuleE, hfe, hct, hstat, hres,
        _duplicate_module_with_count]
    obtain ⟨m, hmeq⟩ : ∃ m, n.toNat = m + 1 := ⟨n.toNat - 1, by omega⟩
    have e1 : _create_new_resources_count (fuel+1) n mi s
        = (0 :: List.map Nat.succ (List.range m)).foldl
            (fun st i => _update_module_children (fuel+1) (getV s mi)
              (FVal.vint (Int.ofNat i)) (i == 0) st)
            ((List.map Nat.succ (List.range m)).foldl
              (fun st i => _create_new_module (fuel+1) (getV s mi)
                (FVal.vint (Int.ofNat i)) mi i none st)
              (_create_new_module (fuel+1) (getV s mi)
                (FVal.vint (Int.ofNat 0)) mi 0 none s)) := by
      show (List.range n.toNat).foldl _ ((List.range n.toNat).foldl _ s) = _
      rw [hmeq, List.range_succ_eq_map]
      rfl
    have hstep_c : ∀ st a, a ∈ List.map Nat.succ (List.range m) →
        (∀ j, j < st.vertices.length →
          getV (_create_new_module (fuel+1) (getV s mi)
            (FVal.vint (Int.ofNat a)) mi a none st) j = getV st j) ∧
        st.vertices.length + 1 ≤ (_create_new_module (fuel+1) (getV s mi)
          (FVal.vint (Int.ofNat a)) mi a none st).vertices.length := by
      intro st a ha
      obtain ⟨b2, _, rfl⟩ := List.mem_map.mp ha
      exact ⟨fun j hj => create_new_module_pos_getV _ _ _ _ _ _ _ _ (Nat.succ_ne_zero b2) hj,
        create_new_module_pos_length _ _ _ _ _ _ _ (Nat.succ_ne_zero b2)⟩
    have hcreate := create_steps_preserve
      (fun st i => _create_new_module (fuel+1) (getV s mi)
        (FVal.vint (Int.ofNat i)) mi i none st)
      (List.map Nat.succ (List.range m)) hstep_c
      (_create_new_module (fuel+1) (getV s mi) (FVal.vint (Int.ofNat 0)) mi 0 none s)
    have hupd := update_steps_preserve
      (fun st i => _update_module_children (fuel+1) (getV s mi)
        (FVal.vint (Int.ofNat i)) (i == 0) st)
      (0 :: List.map Nat.succ (List.range m))
      (fun st a _ => ⟨(updModuleChildren_preserves (fuel+1) (getV s mi)
          (FVal.vint (Int.ofNat a)) (a == 0) st).2.1,
        (updModuleChildren_preserves (fuel+1) (getV s mi)
          (FVal.vint (Int.ofNat a)) (a == 0) st).2.2⟩)
      ((List.map Nat.succ (List.range m)).foldl
        (fun st i => _create_new_module (fuel+1) (getV s mi)
          (FVal.vint (Int.ofNat i)) mi i none st)
        (_create_new_module (fuel+1) (getV s mi) (FVal.vint (Int.ofNat 0)) mi 0 none s))
    have hs0len : (_create_new_module (fuel+1) (getV s mi)
        (FVal.vint (Int.ofNat 0)) mi 0 none s).vertices.length = s.vertices.length := by
      rw [create_new_module_zero_eq]
      simp
    have hcslot : getV ((List.map Nat.succ (List.range m)).foldl
        (fun st i => _create_new_module (fuel+1) (getV s mi)
          (FVal.vint (Int.ofNat i)) mi i none st)
        (_create_new_module (fuel+1) (getV s mi) (FVal.vint (Int.ofNat 0)) mi 0 none s)) mi
        = cloneBlock (getV s mi) none (FVal.vint (Int.ofNat 0)) := by
      rw [hcreate.1 mi (by rw [hs0len]; exact hlen)]
      rw [create_new_module_zero_eq]
      show (s.vertices.set mi _).getD mi defaultBlock = _
      exact getD_set_self _ _ _ _ hlen
    rw [hpm, e1]
    refine ⟨?_, ?_, ?_⟩
    · rw [(hupd.2 mi).2.2.2.2.2, hcslot]
      exact (cloneBlock_fields (getV s mi) none (FVal.vint (Int.ofNat 0))).1
    · rw [(hupd.2 mi).1, hcslot]
      exact (cloneBlock_fields (getV s mi) none (FVal.vint (Int.ofNat 0))).2.1
    · rw [hupd.1]
      have h4 := hcreate.2
      have h5 : (List.map Nat.succ (List.range m)).length = m := by simp
      omega
  · intro s mi x xs hfe hstat hres hlen
    have hpm : processModule c (fuel+1) s mi
        = _create_new_resources_foreach (fuel+1) (FEStatement.fseq (x :: xs)) mi s := by
      simp [processModule, processModuleE, hfe, hstat, hres,
        _duplicate_module_with_for_each]
    have e1 : _create_new_resources_foreach (fuel+1) (FEStatement.fseq (x :: xs)) mi s
        = ((x :: xs).enum).foldl
            (fun st iv => _update_module_children (fuel+1) (getV s mi) iv.2 (iv.1 == 0) st)
            ((List.enumFrom 1 xs).foldl
              (fun st iv => _create_new_foreach_resource (fuel+1) mi iv.1 (getV s mi)
                none iv.2 st)
              (_create_new_foreach_resource (fuel+1) mi 0 (getV s mi) none x s)) := rfl
    have hstep_c : ∀ st iv, iv ∈ List.enumFrom 1 xs →
        (∀ j, j < st.vertices.length →
          getV (_create_new_foreach_resource (fuel+1) mi iv.1 (getV s mi) none iv.2 st) j
            = getV st j) ∧
        st.vertices.length + 1 ≤ (_create_new_foreach_resource (fuel+1) mi iv.1 (getV s mi)
          none iv.2 st).vertices.length := by
      intro st iv hiv
      have hpos : iv.1 ≠ 0 := by
        have := enumFrom_fst_le xs 1 iv hiv
        omega
      exact ⟨fun j hj => create_new_module_pos_getV _ _ _ _ _ _ _ _ hpos hj,
        create_new_module_pos_length _ _ _ _ _ _ _ hpos⟩
    have hcreate := create_steps_preserve
      (fun st iv => _create_new_foreach_resource (fuel+1) mi iv.1 (getV s mi) none iv.2 st)
      (List.enumFrom 1 xs) hstep_c
      (_create_new_foreach_resource (fuel+1) mi 0 (getV s mi) none x s)
    have hupd := update_steps_preserve
      (fun st iv => _update_module_children (fuel+1) (getV s mi) iv.2 (iv.1 == 0) st)
      ((x :: xs).enum)
      (fun st a _ => ⟨(updModuleChildren_preserves (fuel+1) (getV s mi) a.2 (a.1 == 0) st).2.1,
        (updModuleChildren_preserves (fuel+1) (getV s mi) a.2 (a.1 == 0) st).2.2⟩)
      ((List.enumFrom 1 xs).foldl
        (fun st iv => _create_new_foreach_resource (fuel+1) mi iv.1 (getV s mi) none iv.2 st)
        (_create_new_foreach_resource (fuel+1) mi 0 (getV s mi) none x s))
    have hs0len : (_create_new_foreach_resource (fuel+1) mi 0 (getV s mi)
        none x s).vertices.length = s.vertices.length := by
      rw [show _create_new_foreach_resource (fuel+1) mi 0 (getV s mi) none x s
          = _create_new_module (fuel+1) (getV s mi) x mi 0 none s from rfl]
      rw [create_new_module_zero_eq]
      simp
    have hcslot : getV ((List.enumFrom 1 xs).foldl
        (fun st iv => _create_new_foreach_resource (fuel+1) mi iv.1 (getV s mi) none iv.2 st)
        (_create_new_foreach_resource (fuel+1) mi 0 (getV s mi) none x s)) mi
        = cloneBlock (getV s mi) none x := by
      rw [hcreate.1 mi (by rw [hs0len]; exact hlen)]
      rw [show _create_new_foreach_resource (fuel+1) mi 0 (getV s mi) none x s
          = _create_new_module (fuel+1) (getV s mi) x mi 0 none s from rfl]
      rw [create_new_module_zero_eq]
      show (s.vertices.set mi _).getD mi defaultBlock = _
      exact getD_set_self _ _ _ _ hlen
    rw [hpm, e1]
    constructor
    · rw [(hupd.2 mi).2.2.2.2.2, hcslot]
      exact (cloneBlock_fields (getV s mi) none x).1
    · rw [hupd.1]
      have h4 := hcreate.2
      have h5 : (List.enumFrom 1 xs).length = xs.length := enumFrom_length xs 1
      omega
  · intro s mi kv kvs hfe hstat hres hlen
    have hpm : processModule c (fuel+1) s mi
        = _create_new_resources_foreach (fuel+1) (FEStatement.fmap (kv :: kvs)) mi s := by
      simp [processModule, processModuleE, hfe, hstat, hres,
        _duplicate_module_with_for_each]
    have e1 : _create_new_resources_foreach (fuel+1) (FEStatement.fmap (kv :: kvs)) mi s
        = ((kv :: kvs).enum).foldl
            (fun st ikv => _update_module_children (fuel+1) (getV s mi) ikv.2.1
              (ikv.1 == 0) st)
            ((List.enumFrom 1 kvs).foldl
              (fun st ikv => _create_new_foreach_resource (fuel+1) mi ikv.1 (getV s mi)
                (some ikv.2.1) ikv.2.2 st)
              (_create_new_foreach_resource (fuel+1) mi 0 (getV s mi)
                (some kv.1) kv.2 s)) := rfl
    have hstep_c : ∀ st ikv, ikv ∈ List.enumFrom 1 kvs →
        (∀ j, j < st.vertices.length →
          getV (_create_new_foreach_resource (fuel+1) mi ikv.1 (getV s mi)
            (some ikv.2.1) ikv.2.2 st) j = getV st j) ∧
        st.vertices.length + 1 ≤ (_create_new_foreach_resource (fuel+1) mi ikv.1 (getV s mi)
          (some ikv.2.1) ikv.2.2 st).vertices.length := by
      intro st ikv hikv
      have hpos : ikv.1 ≠ 0 := by
        have := enumFrom_fst_le kvs 1 ikv hikv
        omega
      exact ⟨fun j hj => create_new_module_pos_getV _ _ _ _ _ _ _ _ hpos hj,
        create_new_module_pos_length _ _ _ _ _ _ _ hpos⟩
    have hcreate := create_steps_preserve
      (fun st ikv => _create_new_foreach_resource (fuel+1) mi ikv.1 (getV s mi)
        (some ikv.2.1) ikv.2.2 st)
      (List.enumFrom 1 kvs) hstep_c
      (_create_new_foreach_resource (fuel+1) mi 0 (getV s mi) (some kv.1) kv.2 s)
    have hupd := update_steps_preserve
      (fun st ikv => _update_module_children (fuel+1) (getV s mi) ikv.2.1 (ikv.1 == 0) st)
      ((kv :: kvs).enum)
      (fun st a _ => ⟨(updModuleChildren_preserves (fuel+1) (getV s mi) a.2.1
          (a.1 == 0) st).2.1,
        (updModuleChildren_preserves (fuel+1) (getV s mi) a.2.1 (a.1 == 0) st).2.2⟩)
      ((List.enumFrom 1 kvs).foldl
        (fun st ikv => _create_new_foreach_resource (fuel+1) mi ikv.1 (getV s mi)
          (some ikv.2.1) ikv.2.2 st)
        (_create_new_foreach_resource (fuel+1) mi 0 (getV s mi) (some kv.1) kv.2 s))
    have hs0len : (_create_new_foreach_resource (fuel+1) mi 0 (getV s mi)
        (some kv.1) kv.2 s).vertices.length = s.vertices.length := by
      rw [show _create_new_foreach_resource (fuel+1) mi 0 (getV s mi) (some kv.1) kv.2 s
          = _create_new_module (fuel+1) (getV s mi) kv.2 mi 0 (some kv.1) s from rfl]
      rw [create_new_module_zero_eq]
      simp
    have hcslot : getV ((List.enumFrom 1 kvs).foldl
        (fun st ikv => _create_new_foreach_resource (fuel+1) mi ikv.1 (getV s mi)
          (some ikv.2.1) ikv.2.2 st)
        (_create_new_foreach_resource (fuel+1) mi 0 (getV s mi) (some kv.1) kv.2 s)) mi
        = cloneBlock (getV s mi) (some kv.1) kv.2 := by
      rw [hcreate.1 mi (by rw [hs0len]; exact hlen)]
      rw [show _create_new_foreach_resource (fuel+1) mi 0 (getV s mi) (some kv.1) kv.2 s
          = _create_new_module (fuel+1) (getV s mi) kv.2 mi 0 (some kv.1) s from rfl]
      rw [create_new_module_zero_eq]
      show (s.vertices.set mi _).getD mi defaultBlock = _
      exact getD_set_self _ _ _ _ hlen
    rw [hpm, e1]
    constructor
    · rw [(hupd.2 mi).2.2.2.2.2, hcslot]
      exact (cloneBlock_fields (getV s mi) (some kv.1) kv.2).1
    · rw [hupd.1]
      have h4 := hcreate.2
      have h5 : (List.enumFrom 1 kvs).length = kvs.length := enumFrom_length kvs 1
      omega

end ForeachModule

namespace ForeachModule

/-- Folding steps that preserve a fixed slot `j` and never shrink the vertex list. -/
theorem fold_preserve_at {α : Type} (step : TerraformLocalGraph → α → TerraformLocalGraph)
    (j : Nat) :
    ∀ (l : List α),
      (∀ st a, a ∈ l →
        (j < st.vertices.length → getV (step st a) j = getV st j) ∧
        st.vertices.length ≤ (step st a).vertices.length) →
      ∀ s, (j < s.vertices.length → getV (l.foldl step s) j = getV s j) ∧
        s.vertices.length ≤ (l.foldl step s).vertices.length := by
  intro l
  induction l with
  | nil => intro _ s; exact ⟨fun _ => rfl, le_refl _⟩
  | cons a as ih =>
    intro hstep s
    have h1 := hstep s a (List.mem_cons_self a as)
    have ih' := ih (fun st b hb => hstep st b (List.mem_cons_of_mem a hb)) (step s a)
    constructor
    · intro hj
      show getV (as.foldl step (step s a)) j = getV s j
      rw [ih'.1 (lt_of_lt_of_le hj h1.2)]
      exact h1.1 hj
    · exact le_trans h1.2 ih'.2

/-- Expanding a `for_each` statement at block `i` never changes the name or
`for_each_index` of another existing vertex, and never removes vertices. -/
theorem foreach_preserves_other (fuel : Nat) (stmt : FEStatement) (i : Nat)
    (s : TerraformLocalGraph) (j : Nat) (hj : j ≠ i) :
    (j < s.vertices.length →
      (getV (_create_new_resources_foreach fuel stmt i s) j).name = (getV s j).name ∧
      (getV (_create_new_resources_foreach fuel stmt i s) j).for_each_index
          = (getV s j).for_each_index) ∧
    s.vertices.length ≤ (_create_new_resources_foreach fuel stmt i s).vertices.length := by
  cases stmt with
  | fseq xs =>
    have e : _create_new_resources_foreach fuel (FEStatement.fseq xs) i s
        = (xs.enum).foldl
            (fun st iv => _update_module_children fuel (getV s i) iv.2 (iv.1 == 0) st)
            ((xs.enum).foldl
              (fun st iv => _create_new_foreach_resource fuel i iv.1 (getV s i)
                none iv.2 st) s) := rfl
    rw [e]
    have hcr := fold_preserve_at
      (fun st iv => _create_new_foreach_resource fuel i iv.1 (getV s i) none iv.2 st) j
      (xs.enum)
      (fun st a _ => ⟨fun hjl => create_new_module_getV_other _ _ _ _ _ _ _ _ hj hjl,
        create_new_module_length_le _ _ _ _ _ _ _⟩) s
    have hup := update_steps_preserve
      (fun st iv => _update_module_children fuel (getV s i) iv.2 (iv.1 == 0) st)
      (xs.enum)
      (fun st a _ => ⟨(updModuleChildren_preserves fuel (getV s i) a.2 (a.1 == 0) st).2.1,
        (updModuleChildren_preserves fuel (getV s i) a.2 (a.1 == 0) st).2.2⟩)
      ((xs.enum).foldl
        (fun st iv => _create_new_foreach_resource fuel i iv.1 (getV s i) none iv.2 st) s)
    constructor
    · intro hjl
      constructor
      · rw [(hup.2 j).1, hcr.1 hjl]
      · rw [(hup.2 j).2.2.2.2.2, hcr.1 hjl]
    · rw [hup.1]
      exact hcr.2
  | fmap kvs =>
    have e : _create_new_resources_foreach fuel (FEStatement.fmap kvs) i s
        = (kvs.enum).foldl
            (fun st ikv => _update_module_children fuel (getV s i) ikv.2.1 (ikv.1 == 0) st)
            ((kvs.enum).foldl
              (fun st ikv => _create_new_foreach_resource fuel i ikv.1 (getV s i)
                (some ikv.2.1) ikv.2.2 st) s) := rfl
    rw [e]
    have hcr := fold_preserve_at
      (fun st ikv => _create_new_foreach_resource fuel i ikv.1 (getV s i)
        (some ikv.2.1) ikv.2.2 st) j
      (kvs.enum)
      (fun st a _ => ⟨fun hjl => create_new_module_getV_other _ _ _ _ _ _ _ _ hj hjl,
        create_new_module_length_le _ _ _ _ _ _ _⟩) s
    have hup := update_steps_preserve
      (fun st ikv => _update_module_children fuel (getV s i) ikv.2.1 (ikv.1 == 0) st)
      (kvs.enum)
      (fun st a _ => ⟨(updModuleChildren_preserves fuel (getV s i) a.2.1 (a.1 == 0) st).2.1,
        (updModuleChildren_preserves fuel (getV s i) a.2.1 (a.1 == 0) st).2.2⟩)
      ((kvs.enum).foldl
        (fun st ikv => _create_new_foreach_resource fuel i ikv.1 (getV s i)
          (some ikv.2.1) ikv.2.2 st) s)
    constructor
    · intro hjl
      constructor
      · rw [(hup.2 j).1, hcr.1 hjl]
      · rw [(hup.2 j).2.2.2.2.2, hcr.1 hjl]
    · rw [hup.1]
      exact hcr.2
  | fint n => exact ⟨fun _ => ⟨rfl, rfl⟩, le_refl _⟩
  | fother v => exact ⟨fun _ => ⟨rfl, rfl⟩, le_refl _⟩

/-- Expanding a `count` statement at block `i` never changes the name or
`for_each_index` of another existing vertex, and never removes vertices. -/
theorem count_preserves_other (fuel : Nat) (n : Int) (i : Nat) (s : TerraformLocalGraph)
    (j : Nat) (hj : j ≠ i) :
    (j < s.vertices.length →
      (getV (_create_new_resources_count fuel n i s) j).name = (getV s j).name ∧
      (getV (_create_new_resources_count fuel n i s) j).for_each_index
          = (getV s j).for_each_index) ∧
    s.vertices.length ≤ (_create_new_resources_count fuel n i s).vertices.length := by
  have e : _create_new_resources_count fuel n i s
      = (List.range n.toNat).foldl
          (fun st a => _update_module_children fuel (getV s i)
            (FVal.vint (Int.ofNat a)) (a == 0) st)
          ((List.range n.toNat).foldl
            (fun st a => _create_new_module fuel (getV s i)
              (FVal.vint (Int.ofNat a)) i a none st) s) := rfl
  rw [e]
  have hcr := fold_preserve_at
    (fun st a => _create_new_module fuel (getV s i) (FVal.vint (Int.ofNat a)) i a none st) j
    (List.range n.toNat)
    (fun st a _ => ⟨fun hjl => create_new_module_getV_other _ _ _ _ _ _ _ _ hj hjl,
      create_new_module_length_le _ _ _ _ _ _ _⟩) s
  have hup := update_steps_preserve
    (fun st a => _update_module_children fuel (getV s i) (FVal.vint (Int.ofNat a)) (a == 0) st)
    (List.range n.toNat)
    (fun st a _ => ⟨(updModuleChildren_preserves fuel (getV s i)
        (FVal.vint (Int.ofNat a)) (a == 0) st).2.1,
      (updModuleChildren_preserves fuel (getV s i)
        (FVal.vint (Int.ofNat a)) (a == 0) st).2.2⟩)
    ((List.range n.toNat).foldl
      (fun st a => _create_new_module fuel (getV s i)
        (FVal.vint (Int.ofNat a)) i a none st) s)
  constructor
  · intro hjl
    constructor
    · rw [(hup.2 j).1, hcr.1 hjl]
    · rw [(hup.2 j).2.2.2.2.2, hcr.1 hjl]
  · rw [hup.1]
    exact hcr.2

/-- Processing one scheduled module never changes the name or `for_each_index` of any
other existing vertex, and never removes vertices. -/
theorem processModule_preserves_other (c : Collaborators) (fuel : Nat)
    (s : TerraformLocalGraph) (i : Nat) (j : Nat) (hj : j ≠ i) :
    (j < s.vertices.length →
      (getV (processModule c fuel s i) j).name = (getV s j).name ∧
      (getV (processModule c fuel s i) j).for_each_index = (getV s j).for_each_index) ∧
    s.vertices.length ≤ (processModule c fuel s i).vertices.length := by
  simp only [processModule, processModuleE]
  split
  · rename_i t heq
    split at heq
    · split at heq
      · injection heq with h2
        subst h2
        exact foreach_preserves_other fuel _ i s j hj
      · injection heq with h2
        subst h2
        exact ⟨fun _ => ⟨rfl, rfl⟩, le_refl _⟩
    · split at heq
      · split at heq
        · cases hr : c.resolveStmt s i with
          | fint n =>
            rw [hr] at heq
            simp only [_duplicate_module_with_count] at heq
            injection heq with h2
            subst h2
            exact count_preserves_other fuel n i s j hj
          | fseq xs =>
            rw [hr] at heq
            simp [_duplicate_module_with_count] at heq
          | fmap kvs =>
            rw [hr] at heq
            simp [_duplicate_module_with_count] at heq
          | fother v =>
            rw [hr] at heq
            cases v with
            | vint n => simp [_duplicate_module_with_count] at heq
            | vstr st2 => simp [_duplicate_module_with_count] at heq
            | vbool b =>
              simp only [_duplicate_module_with_count] at heq
              injection heq with h2
              subst h2
              exact count_preserves_other fuel (if b then 1 else 0) i s j hj
            | vnone => simp [_duplicate_module_with_count] at heq
        · injection heq with h2
          subst h2
          exact ⟨fun _ => ⟨rfl, rfl⟩, le_refl _⟩
      · injection heq with h2
        subst h2
        exact ⟨fun _ => ⟨rfl, rfl⟩, le_refl _⟩
  · exact ⟨fun _ => ⟨rfl, rfl⟩, le_refl _⟩

/-- Every index of the next schedule comes from a MODULE group of a level key. -/
theorem get_modules_to_render_mem (s : TerraformLocalGraph) (lvl : List TFChain) (m : Nat)
    (hm : m ∈ (_get_modules_to_render s lvl).2) :
    ∃ curr, curr ∈ (_get_modules_to_render s lvl).1 ∧
      m ∈ groupsGet (memGetD s.vertices_by_module_dependency curr) BlockType.module := by
  simp only [_get_modules_to_render] at hm ⊢
  rw [List.mem_flatten] at hm
  obtain ⟨l', hl', hml⟩ := hm
  rw [List.mem_map] at hl'
  obtain ⟨curr, hcurr, rfl⟩ := hl'
  exact ⟨curr, hcurr, hml⟩

end ForeachModule

namespace ForeachModule

/-- **C8.**  The scheduler's level discipline: a round of
`_render_foreach_modules_by_levels` multiplies ONLY the modules scheduled for that
round — every other existing vertex keeps its name and `for_each_index` — and every
module index scheduled for the NEXT round is drawn, after the current round's
processing, from a MODULE membership group under a key of the next level (which is
derived from the just-processed modules).  So a nested module B, reachable only
through the membership entry of an outer module A, is never multiplied in the round
that multiplies A: it can be scheduled only by the level derived after A's round. -/
theorem c8_round_multiplies_only_scheduled_next_schedule_from_new_level
    (c : Collaborators) (fuel : Nat) (mb todo : List Nat) (lvl : List TFChain)
    (s : TerraformLocalGraph) :
    (∀ j, j < s.vertices.length → j ∉ todo →
      (getV (_render_foreach_modules_by_levels c fuel mb todo lvl s).1 j).name
          = (getV s j).name ∧
      (getV (_render_foreach_modules_by_levels c fuel mb todo lvl s).1 j).for_each_index
          = (getV s j).for_each_index) ∧
    (∀ m, m ∈ (_render_foreach_modules_by_levels c fuel mb todo lvl s).2.2 →
      ∃ curr, curr ∈ (_render_foreach_modules_by_levels c fuel mb todo lvl s).2.1 ∧
        m ∈ groupsGet
          (memGetD
            (_render_foreach_modules_by_levels c fuel mb todo lvl s).1.vertices_by_module_dependency
            curr)
          BlockType.module) := by
  have hr := render_core c mb s
  constructor
  · intro j hjl hjtodo
    have key : ∀ (td : List Nat) (st : TerraformLocalGraph), (∀ t ∈ td, j ≠ t) →
        j < st.vertices.length →
        (getV (td.foldl (fun st i => processModule c fuel st i) st) j).name
            = (getV st j).name ∧
        (getV (td.foldl (fun st i => processModule c fuel st i) st) j).for_each_index
            = (getV st j).for_each_index := by
      intro td
      induction td with
      | nil => intro st _ _; exact ⟨rfl, rfl⟩
      | cons t ts ih =>
        intro st hne hjl'
        have hp := processModule_preserves_other c fuel st t j (hne t (List.mem_cons_self t ts))
        have ih' := ih (processModule c fuel st t)
          (fun u hu => hne u (List.mem_cons_of_mem t hu))
          (lt_of_lt_of_le hjl' hp.2)
        exact ⟨ih'.1.trans (hp.1 hjl').1, ih'.2.trans (hp.1 hjl').2⟩
    have hne : ∀ t ∈ todo, j ≠ t := fun t ht hjt => hjtodo (hjt ▸ ht)
    have hjl1 : j < (_render_sub_graph c mb s).vertices.length := by
      rw [hr.2.1]; exact hjl
    have hk := key todo (_render_sub_graph c mb s) hne hjl1
    have hc := hr.2.2 j
    exact ⟨hk.1.trans hc.1, hk.2.trans hc.2.2.2.2.2⟩
  · intro m hm
    exact get_modules_to_render_mem
      (todo.foldl (fun st i => processModule c fuel st i) (_render_sub_graph c mb s))
      lvl m hm

/-- The name-truncation of `_get_current_tf_module_object`: `takeWhile` of a list whose
prefix avoids the separator stops exactly at the separator. -/
theorem takeWhile_ne_bracket (bl sl : List Char) (h : ∀ ch ∈ bl, ch ≠ '[') :
    (bl ++ '[' :: sl).takeWhile (fun ch => ch ≠ '[') = bl := by
  induction bl with
  | nil => rfl
  | cons ch cs ih =>
    have hch : ch ≠ '[' := h ch (List.mem_cons_self ch cs)
    have hp : decide (ch ≠ '[') = true := by simp [hch]
    simp only [List.cons_append, List.takeWhile]
    rw [hp]
    show ch :: List.takeWhile (fun c0 => decide (c0 ≠ '[')) (cs ++ '[' :: sl) = ch :: cs
    rw [ih (fun u hu => h u (List.mem_cons_of_mem ch hu))]

/-- **C10.**  The next-level key of a just-processed module is built from its name
truncated at the FIRST `[` (stripping the appended instance suffix), its current
`for_each_index` and its source-module object; every new-level key is exactly that
reconstruction for some member of the level's MODULE group; and the next schedule is
the MODULE membership lookup under those reconstructed keys. -/
theorem c10_level_key_truncates_name_at_first_bracket :
    (∀ (s : TerraformLocalGraph) (m : Nat) (bl sl : List Char),
      (getV s m).name.toList = bl ++ '[' :: sl →
      (∀ ch ∈ bl, ch ≠ '[') →
      _get_current_tf_module_object s m
        = ⟨(getV s m).path, String.mk bl, (getV s m).for_each_index⟩ ::
            (getV s m).source_module_object) ∧
    (∀ (s : TerraformLocalGraph) (lvl : List TFChain) (curr : TFChain),
      curr ∈ (_get_modules_to_render s lvl).1 →
      ∃ mi, mi ∈ (lvl.map
          (fun k => groupsGet (memGetD s.vertices_by_module_dependency k)
            BlockType.module)).headD [] ∧
        curr = _get_current_tf_module_object s mi) ∧
    (∀ (s : TerraformLocalGraph) (lvl : List TFChain) (m : Nat),
      m ∈ (_get_modules_to_render s lvl).2 →
      ∃ curr, curr ∈ (_get_modules_to_render s lvl).1 ∧
        m ∈ groupsGet (memGetD s.vertices_by_module_dependency curr) BlockType.module) := by
  refine ⟨?_, ?_, ?_⟩
  · intro s m bl sl hname hbl
    simp only [_get_current_tf_module_object]
    rw [hname, takeWhile_ne_bracket bl sl hbl]
  · intro s lvl curr hcurr
    simp only [_get_modules_to_render] at hcurr
    rw [List.mem_map] at hcurr
    obtain ⟨mi, hmi, he⟩ := hcurr
    exact ⟨mi, hmi, he.symm⟩
  · intro s lvl m hm
    exact get_modules_to_render_mem s lvl m hm

end ForeachModule

namespace ForeachModule

/-- A collaborator whose renderer changes nothing and whose oracle never reports a
statement static. -/
def cId : Collaborators :=
  { isStatic := fun _ _ => false
    resolveStmt := fun _ _ => FEStatement.fother FVal.vnone
    renderA := fun b => b.attributes
    renderC := fun b => b.config }

/-- A collaborator that statically resolves every statement to the integer 2. -/
def cTwo : Collaborators :=
  { isStatic := fun _ _ => true
    resolveStmt := fun _ _ => FEStatement.fint 2
    renderA := fun b => b.attributes
    renderC := fun b => b.config }

/-- `exModule` carrying a raw `count = 2` attribute. -/
def twoCountModule : TerraformBlock :=
  { exModule with attributes := [(COUNT_STRING, FEStatement.fint 2)] }

def twoCountGraph : TerraformLocalGraph :=
  { vertices := [twoCountModule]
    vertices_by_module_dependency := [([], [(BlockType.module, [0])])] }

/-- A nested MODULE child of `exModule`, for the scheduler fixtures. -/
def exChildM : TerraformBlock :=
  { exChild with block_type := BlockType.module }

def exGraph3 : TerraformLocalGraph :=
  { vertices := [exModule, exChildM]
    vertices_by_module_dependency :=
      [([], [(BlockType.module, [0])]),
       ([TFFrame.mk "main.tf" "m" none], [(BlockType.module, [1])])] }

/-- `exModule` after an instance suffix has been appended to its name. -/
def bracketModule : TerraformBlock :=
  { exModule with name := "m[a]" }

def bracketGraph : TerraformLocalGraph :=
  { vertices := [bracketModule]
    vertices_by_module_dependency := [] }

theorem c1_first_clone_overrides_later_clones_append_witness :
    (_create_new_module 2 exModule (FVal.vstr "a") 0 0 none exGraph).vertices.length
        = exGraph.vertices.length ∧
    (getV (_create_new_module 2 exModule (FVal.vstr "b") 0 1 none exGraph)
        exGraph.vertices.length).for_each_index = some (pyOr none (FVal.vstr "b")) :=
  ⟨((c1_first_clone_overrides_later_clones_append 1 exModule (FVal.vstr "a") none 0 0
      exGraph).1 rfl (by decide)).1,
   ((c1_first_clone_overrides_later_clones_append 1 exModule (FVal.vstr "b") none 0 1
      exGraph).2 (by decide)).2.2.1⟩

theorem c2_amended_for_each_index_or_semantics_witness :
    (getV (_create_new_resources_foreach 2
        (FEStatement.fmap [(FVal.vstr "a", FVal.vstr "v")]) 0 exGraph) 0).for_each_index
        = some (if (FVal.vstr "a").truthy then FVal.vstr "a" else FVal.vstr "v") ∧
    (getV (_create_new_resources_foreach 2
        (FEStatement.fseq [FVal.vstr "x"]) 0 exGraph) 0).for_each_index
        = some (FVal.vstr "x") :=
  (c2_amended_for_each_index_or_semantics 1 exModule (FVal.vstr "a") (FVal.vstr "v")
    (FVal.vstr "x") 0 1 exGraph).2.2 (by decide)

theorem c3_amended_walk_rewrites_smo_preserves_for_each_index_witness :
    _update_children_foreach_index 3 (FVal.vint 0) [] [TFFrame.mk "main.tf" "m" none]
        true exGraph2
      = setV exGraph2 1 (walkedChild (FVal.vint 0) [] (getV exGraph2 1)) :=
  c3_amended_walk_rewrites_smo_preserves_for_each_index.2 0 (FVal.vint 0) []
    [TFFrame.mk "main.tf" "m" none] true exGraph2 1 BlockType.resource rfl rfl

theorem c4_amended_resolvable_expanded_unresolved_untouched_witness :
    (getV (processModule cTwo 1 twoCountGraph 0) 0).for_each_index
        = some (FVal.vint 0) ∧
    (getV (processModule cTwo 1 twoCountGraph 0) 0).name
        = (getV twoCountGraph 0).name ++ "[" ++ fvalStr (FVal.vint 0) ++ "]" ∧
    twoCountGraph.vertices.length + ((2 : Int).toNat - 1)
        ≤ (processModule cTwo 1 twoCountGraph 0).vertices.length :=
  (c4_amended_resolvable_expanded_unresolved_untouched cTwo 0).2.1 twoCountGraph 0 2
    rfl rfl rfl rfl (by decide) (by decide)

theorem c5_count_three_no_children_witness :
    (_create_new_resources_count 1 3 0 exGraph).vertices.length
        = exGraph.vertices.length + 2 ∧
    memFind (_create_new_resources_count 1 3 0 exGraph).vertices_by_module_dependency
        (preKeyOf exModule) = none :=
  ⟨(c5_count_three_no_children 0 exGraph 0 exModule rfl (by decide) rfl).1,
   (c5_count_three_no_children 0 exGraph 0 exModule rfl (by decide) rfl).2.2.2.2.2.2.2.2⟩

theorem c8_round_multiplies_only_scheduled_next_schedule_from_new_level_witness :
    (getV (_render_foreach_modules_by_levels cId 1 [] [0] [[]] exGraph3).1 1).name
        = (getV exGraph3 1).name ∧
    (getV (_render_foreach_modules_by_levels cId 1 [] [0] [[]] exGraph3).1 1).for_each_index
        = (getV exGraph3 1).for_each_index :=
  (c8_round_multiplies_only_scheduled_next_schedule_from_new_level cId 1 [] [0] [[]]
    exGraph3).1 1 (by decide) (by decide)

theorem c9_handle_noop_when_nothing_unresolved_witness :
    handle cId 5 [0] exGraph = exGraph :=
  c9_handle_noop_when_nothing_unresolved cId 5 [0] exGraph (fun _ => rfl) (fun _ => rfl)
    (fun i => by cases i <;> exact ⟨rfl, rfl⟩)

theorem c10_level_key_truncates_name_at_first_bracket_witness :
    _get_current_tf_module_object bracketGraph 0
      = ⟨(getV bracketGraph 0).path, String.mk ['m'],
          (getV bracketGraph 0).for_each_index⟩ ::
          (getV bracketGraph 0).source_module_object :=
  c10_level_key_truncates_name_at_first_bracket.1 bracketGraph 0 ['m'] ['a', ']']
    rfl (by decide)

end ForeachModule
